import Mathlib

/-!
Lua binding of HdrHistogram (`lua_hdrhistogram.c`).

A shallow embedding of the binding's C functions together with the part of the
Lua C API they call.  Machine integers are `Int` with explicit ranges, a C
`double` is a dyadic number `m * 2^e` (or an infinity / NaN), and a function
that can raise a Lua error or leave defined C behaviour returns `Except Fault`.
-/

namespace LuaHdr

/-! ## Numbers -/

/-- Outcome of a call that does not return normally. -/
inductive Fault where
  /-- Raised by `luaL_error`, `luaL_argcheck`, `luaL_check*`. -/
  | luaError (msg : String)
  /-- A failed `assert`. -/
  | assertion
  /-- The C source leaves the behaviour undefined here (a floating value
  converted to an integer type that cannot hold it, an access outside the
  allocated block, a loop counter running past `INT_MAX`). -/
  | undefined
  deriving DecidableEq, Repr

/-- The two families of Lua the file compiles against (`LUA_VERSION_NUM`):
5.1/5.2, where every number is a `double`, and 5.3 and later, where a number
is either a 64-bit integer or a `double`. -/
inductive LuaVersion where
  | lua51
  | lua53
  deriving DecidableEq, Repr

/-- A C `double` (`lua_Number`): the finite value `m * 2^e`, an infinity or NaN. -/
inductive LuaFloat where
  | finite (m : Int) (e : Int)
  | inf (negative : Bool)
  | nan
  deriving DecidableEq, Repr

/-- Smallest `int64_t`. -/
def INT64_MIN : Int := -(2 ^ 63)

/-- Largest `int64_t`. -/
def INT64_MAX : Int := 2 ^ 63 - 1

/-- Smallest `int32_t`. -/
def INT32_MIN : Int := -(2 ^ 31)

/-- Largest `int32_t`. -/
def INT32_MAX : Int := 2 ^ 31 - 1

/-- The integer fits `int64_t`. -/
def inInt64 (n : Int) : Prop := INT64_MIN ≤ n ∧ n ≤ INT64_MAX

/-- The integer fits `int32_t`. -/
def inInt32 (n : Int) : Prop := INT32_MIN ≤ n ∧ n ≤ INT32_MAX

instance (n : Int) : Decidable (inInt64 n) := by unfold inInt64; infer_instance
instance (n : Int) : Decidable (inInt32 n) := by unfold inInt32; infer_instance

/-- Two's-complement wrap of a signed 64-bit result. -/
def wrap64 (n : Int) : Int := (n + 2 ^ 63) % 2 ^ 64 - 2 ^ 63

/-- Two's-complement wrap of a signed 32-bit result. -/
def wrap32 (n : Int) : Int := (n + 2 ^ 31) % 2 ^ 32 - 2 ^ 31

/-- Number of low bits a natural number below `2^64` loses when it is stored
in the 53-bit significand of a `double`. -/
def lostBits (a : Nat) : Nat :=
  ((List.range 11).filter (fun k => 2 ^ (53 + k) ≤ a)).length

/-- Round a natural number below `2^64` to the nearest `double` (ties to even). -/
def roundNat (a : Nat) : Nat :=
  let k := lostBits a
  let q := a / 2 ^ k
  let r := a % 2 ^ k
  let up := 2 * r > 2 ^ k ∨ (2 * r = 2 ^ k ∧ q % 2 = 1)
  (if up then q + 1 else q) * 2 ^ k

/-- Value of `(double)n` for `n` an `int64_t`: round to nearest, ties to even. -/
def roundDouble (n : Int) : Int :=
  if 0 ≤ n then (roundNat n.toNat : Int) else -(roundNat (-n).toNat : Int)

/-- The implicit conversion `int64_t → lua_Number`. -/
def int64ToDouble (n : Int) : LuaFloat := .finite (roundDouble n) 0

/-- Integer part (rounding toward zero) of a finite `double`. -/
def LuaFloat.trunc : LuaFloat → Option Int
  | .finite m e => some (if 0 ≤ e then m * 2 ^ e.toNat else Int.tdiv m (2 ^ (-e).toNat))
  | _ => none

/-- Whether a finite `double` holds an integral value. -/
def LuaFloat.isIntegral : LuaFloat → Bool
  | .finite m e => decide (0 ≤ e) || decide (m % 2 ^ (-e).toNat = 0)
  | _ => false

/-- The C cast `(int64_t)d`: truncation, undefined when the integer part does
not fit. -/
def castInt64 (d : LuaFloat) : Except Fault Int :=
  match d.trunc with
  | some n => if inInt64 n then .ok n else .error .undefined
  | none => .error .undefined

/-- The C cast `(int32_t)d`. -/
def castInt32 (d : LuaFloat) : Except Fault Int :=
  match d.trunc with
  | some n => if inInt32 n then .ok n else .error .undefined
  | none => .error .undefined

/-- A Lua number: a float, or (Lua 5.3 and later only) an integer. -/
inductive LuaNumber where
  | float (d : LuaFloat)
  | integer (n : Int)
  deriving DecidableEq, Repr

/-- The number read as a `lua_Number`. -/
def LuaNumber.asFloat : LuaNumber → LuaFloat
  | .float d => d
  | .integer n => int64ToDouble n

/-! ## The histogram object -/

/-- Modelled from the spec: the Histogram of section 3 with its embedded
BucketConfig; `struct hdr_histogram` is declared in `hdr_histogram.h`, which
is missing from the sources.  The fields are the fifteen scalars that
`lhdr_serialize` and `lhdr_unserialize` name, with the C types of the casts in
`lhdr_unserialize`, and the trailing `counts` array. -/
structure hdr_histogram where
  lowest_trackable_value : Int
  highest_trackable_value : Int
  unit_magnitude : Int
  significant_figures : Int
  sub_bucket_half_count_magnitude : Int
  sub_bucket_half_count : Int
  sub_bucket_mask : Int
  sub_bucket_count : Int
  bucket_count : Int
  min_value : Int
  max_value : Int
  normalizing_index_offset : Int
  conversion_ratio : LuaFloat
  counts_len : Int
  total_count : Int
  counts : List Int
  deriving DecidableEq, Repr

/-- Every integer field lies within its C type. -/
def hdr_histogram.ScalarsTyped (h : hdr_histogram) : Prop :=
  inInt64 h.lowest_trackable_value ∧ inInt64 h.highest_trackable_value ∧
  inInt32 h.unit_magnitude ∧ inInt64 h.significant_figures ∧
  inInt32 h.sub_bucket_half_count_magnitude ∧ inInt32 h.sub_bucket_half_count ∧
  inInt64 h.sub_bucket_mask ∧ inInt32 h.sub_bucket_count ∧
  inInt32 h.bucket_count ∧ inInt64 h.min_value ∧ inInt64 h.max_value ∧
  inInt32 h.normalizing_index_offset ∧ inInt32 h.counts_len ∧
  inInt64 h.total_count

/-- A histogram object as C can hold it: every integer field within its C
type, and a `counts` block of exactly `counts_len` 64-bit cells. -/
def hdr_histogram.WellTyped (h : hdr_histogram) : Prop :=
  h.ScalarsTyped ∧ (h.counts.length : Int) = h.counts_len ∧ ∀ c ∈ h.counts, inInt64 c

instance (h : hdr_histogram) : Decidable h.ScalarsTyped := by
  unfold hdr_histogram.ScalarsTyped; infer_instance

instance (h : hdr_histogram) : Decidable h.WellTyped := by
  unfold hdr_histogram.WellTyped; infer_instance

/-! ## Lua values -/

/-- A Lua value that is not a table or a userdata.  A string carries the
number it converts to, when it is a numeral. -/
inductive LuaScalar where
  | nil
  | boolean (b : Bool)
  | number (x : LuaNumber)
  | string (numeral : Option LuaNumber)
  deriving DecidableEq, Repr

/-- A value stored under a string key of a table: a scalar, or a table read
through its integer keys (`items[i-1]` is the value under key `i`, absent
keys are `nil`). -/
inductive LuaItem where
  | scalar (v : LuaScalar)
  | sequence (items : List LuaScalar)
  deriving DecidableEq, Repr

/-- A table read through its string keys; when a key occurs twice the first
entry is the value stored last. -/
structure LuaTable where
  fields : List (String × LuaItem)
  deriving DecidableEq, Repr

/-- A value on the Lua stack. -/
inductive LuaValue where
  | scalar (v : LuaScalar)
  | table (t : LuaTable)
  | userdata (h : hdr_histogram)
  deriving DecidableEq, Repr

/-! ## The Lua C API used by the binding -/

/-- Lua `lua_tonumber` on a scalar: the number, the number a numeral string
converts to, and 0 for everything else. -/
def LuaScalar.tonumber : LuaScalar → LuaFloat
  | .number x => x.asFloat
  | .string (some x) => x.asFloat
  | _ => .finite 0 0

/-- Lua `lua_tonumber` on a table field value. -/
def lua_tonumber : LuaItem → LuaFloat
  | .scalar v => v.tonumber
  | .sequence _ => .finite 0 0

/-- Lua `lua_tointeger` on a number, `lua_Integer` being 64 bits wide.  Lua
5.1 casts the `double` to `lua_Integer`; Lua 5.3 returns an integer as it is,
a float only when it holds an integral value that fits, and 0 otherwise. -/
def LuaNumber.tointeger (ver : LuaVersion) : LuaNumber → Except Fault Int
  | .integer n =>
    match ver with
    | .lua51 => castInt64 (int64ToDouble n)
    | .lua53 => .ok n
  | .float d =>
    match ver with
    | .lua51 => castInt64 d
    | .lua53 =>
      match d.trunc with
      | some n => if d.isIntegral ∧ inInt64 n then .ok n else .ok 0
      | none => .ok 0

/-- Lua `lua_tointeger` on a scalar. -/
def LuaScalar.tointeger (ver : LuaVersion) : LuaScalar → Except Fault Int
  | .number x => x.tointeger ver
  | .string (some x) => x.tointeger ver
  | _ => .ok 0

/-- Lua `lua_tointeger` on a table field value. -/
def lua_tointeger (ver : LuaVersion) : LuaItem → Except Fault Int
  | .scalar v => v.tointeger ver
  | .sequence _ => .ok 0

/-- Lua `lua_pushnumber` applied to a `double`. -/
def lua_pushnumber (d : LuaFloat) : LuaScalar := .number (.float d)

/-- Lua `lua_pushinteger`: a float in Lua 5.1, an integer in Lua 5.3. -/
def lua_pushinteger (ver : LuaVersion) (n : Int) : LuaScalar :=
  match ver with
  | .lua51 => .number (.float (int64ToDouble n))
  | .lua53 => .number (.integer n)

/-- Lua `lua_getfield`: the value under a string key, `nil` when absent. -/
def lua_getfield (t : LuaTable) (k : String) : LuaItem :=
  (t.fields.lookup k).getD (.scalar .nil)

/-- Lua `lua_setfield`: store a value under a string key; the newest entry
for a key comes first and is the one `lua_getfield` finds. -/
def lua_setfield (t : LuaTable) (k : String) (v : LuaItem) : LuaTable :=
  { fields := (k, v) :: t.fields }

/-- Lua `lua_newtable`. -/
def lua_newtable : LuaTable := { fields := [] }

/-- Lua `lua_rawgeti` on the value pushed for the `counts` key.  Indexing a
value that is not a table is outside the API's defined behaviour. -/
def lua_rawgeti (counts : LuaItem) (i : Nat) : Except Fault LuaScalar :=
  match counts with
  | .sequence items => .ok (if i = 0 then .nil else items.getD (i - 1) .nil)
  | .scalar _ => .error .undefined

/-- Lua `lua_rawseti` on a table built as a sequence: key `i` is appended when
it is the next key, and overwritten when it is already there. -/
def lua_rawseti (items : List LuaScalar) (i : Nat) (v : LuaScalar) : List LuaScalar :=
  if i = items.length + 1 then items ++ [v] else items.set (i - 1) v

/-- Lua `luaL_checknumber`: the argument as a `lua_Number`, an error when it
is neither a number nor a numeral string. -/
def luaL_checknumber (v : LuaValue) : Except Fault LuaFloat :=
  match v with
  | .scalar (.number x) => .ok x.asFloat
  | .scalar (.string (some x)) => .ok x.asFloat
  | _ => .error (.luaError "number expected")

/-- Lua `luaL_checkinteger`: Lua 5.1 casts the number to `lua_Integer`, Lua 5.3
raises an error for a float without an integer representation. -/
def luaL_checkinteger (ver : LuaVersion) (v : LuaValue) : Except Fault Int :=
  match v with
  | .scalar (.number x) | .scalar (.string (some x)) =>
    match ver, x with
    | .lua51, x => castInt64 x.asFloat
    | .lua53, .integer n => .ok n
    | .lua53, .float d =>
      match d.trunc with
      | some n =>
        if d.isIntegral ∧ inInt64 n then .ok n
        else .error (.luaError "number has no integer representation")
      | none => .error (.luaError "number has no integer representation")
  | _ => .error (.luaError "number expected")

/-- A C `for (i = 0; i < n; i++)` loop whose body may fail. -/
def forLoop {σ : Type} (body : Nat → σ → Except Fault σ) : Nat → σ → Except Fault σ
  | 0, s => .ok s
  | n + 1, s => (forLoop body n s).bind (body n)

/-! ## The engine behind `hdr_histogram.h` -/

/-- Modelled from the spec: the BucketConfig of section 3 as the C record
`struct hdr_histogram_bucket_config` that `hdr_calculate_bucket_config` fills;
its declaration in `hdr_histogram.h` is missing from the sources, and
`lhdr_new` reads only `counts_len` from it. -/
structure hdr_histogram_bucket_config where
  lowest_trackable_value : Int
  highest_trackable_value : Int
  unit_magnitude : Int
  significant_figures : Int
  sub_bucket_half_count_magnitude : Int
  sub_bucket_half_count : Int
  sub_bucket_mask : Int
  sub_bucket_count : Int
  bucket_count : Int
  counts_len : Int
  deriving DecidableEq, Repr

/-- The engine functions the binding calls; `hdr_histogram.h` declares them
and their bodies are not part of `lua_hdrhistogram.c`.
`hdr_calculate_bucket_config` gives `none` for a nonzero return code. -/
structure Engine where
  hdr_calculate_bucket_config : Int → Int → Int → Option hdr_histogram_bucket_config
  hdr_init_preallocated : hdr_histogram → hdr_histogram_bucket_config → hdr_histogram
  hdr_min : hdr_histogram → Int
  hdr_max : hdr_histogram → Int
  hdr_mean : hdr_histogram → LuaFloat
  hdr_stddev : hdr_histogram → LuaFloat
  hdr_value_at_percentile : hdr_histogram → LuaFloat → Int

/-! ## `lua_hdrhistogram.c` -/

/-- The block `lua_newuserdata` returns followed by `memset(hdr, 0, size)`:
every field zero and `counts_len` zero cells. -/
def zeroed_histogram (counts_len : Nat) : hdr_histogram :=
  { lowest_trackable_value := 0, highest_trackable_value := 0, unit_magnitude := 0,
    significant_figures := 0, sub_bucket_half_count_magnitude := 0,
    sub_bucket_half_count := 0, sub_bucket_mask := 0, sub_bucket_count := 0,
    bucket_count := 0, min_value := 0, max_value := 0, normalizing_index_offset := 0,
    conversion_ratio := .finite 0 0, counts_len := 0, total_count := 0,
    counts := List.replicate counts_len 0 }

/-- Lines 30-41 of `lhdr_new`: the argument count, the three conversions and
the three `luaL_argcheck`s; the result is the triple handed to
`hdr_calculate_bucket_config`.  The product `lowest_trackable_value * 2` is
taken in `int64_t`; past `INT64_MAX` it wraps in two's complement, as it does
under the usual compilers (C leaves the overflow undefined). -/
def lhdr_new_checks (ver : LuaVersion) (stack : List LuaValue) :
    Except Fault (Int × Int × Int) :=
  match stack with
  | [a1, a2, a3] =>
    (luaL_checknumber a1).bind fun d1 =>
    (castInt64 d1).bind fun lowest_trackable_value =>
    (luaL_checknumber a2).bind fun d2 =>
    (castInt64 d2).bind fun highest_trackable_value =>
    (luaL_checkinteger ver a3).bind fun significant_figures =>
    if ¬ (lowest_trackable_value ≥ 1) then
      .error (.luaError "lowest trackable value must be >= 1")
    else if ¬ (highest_trackable_value > wrap64 (lowest_trackable_value * 2)) then
      .error (.luaError "highest trackable value must be > lowest*2")
    else if ¬ (0 < significant_figures ∧ 6 > significant_figures) then
      .error (.luaError "significant figures must be 1-5")
    else .ok (lowest_trackable_value, highest_trackable_value, significant_figures)
  | _ => .error (.luaError "incorrect number of arguments")

/-- The function `lhdr_new`. -/
def lhdr_new (ver : LuaVersion) (eng : Engine) (stack : List LuaValue) :
    Except Fault hdr_histogram :=
  (lhdr_new_checks ver stack).bind fun (lowest, highest, figures) =>
  match eng.hdr_calculate_bucket_config lowest highest figures with
  | none => .error (.luaError "hdr_calculate_bucket_config failed")
  | some cfg =>
    if cfg.counts_len < 0 then .error .undefined
    else .ok (eng.hdr_init_preallocated (zeroed_histogram cfg.counts_len.toNat) cfg)

/-- The function `check_hdrhistogram`: argument 1 must be a histogram
userdata and the stack must hold exactly `args` values. -/
def check_hdrhistogram (stack : List LuaValue) (args : Nat) : Except Fault hdr_histogram :=
  match stack with
  | .userdata hdr :: _ =>
    if args = stack.length then .ok hdr
    else .error (.luaError "incorrect number of arguments")
  | _ => .error (.luaError "hdr.histogram expected")

/-- The function `lhdr_count`; a method returns the pushed value and the
histogram as the call leaves it. -/
def lhdr_count (stack : List LuaValue) : Except Fault (LuaScalar × hdr_histogram) :=
  (check_hdrhistogram stack 1).bind fun hdr =>
  .ok (lua_pushnumber (int64ToDouble hdr.total_count), hdr)

/-- The function `lhdr_min`. -/
def lhdr_min (eng : Engine) (stack : List LuaValue) :
    Except Fault (LuaScalar × hdr_histogram) :=
  (check_hdrhistogram stack 1).bind fun hdr =>
  let min : Int := if hdr.total_count > 0 then eng.hdr_min hdr else 0
  .ok (lua_pushnumber (int64ToDouble min), hdr)

/-- The function `lhdr_max`. -/
def lhdr_max (eng : Engine) (stack : List LuaValue) :
    Except Fault (LuaScalar × hdr_histogram) :=
  (check_hdrhistogram stack 1).bind fun hdr =>
  let max : Int := if hdr.total_count > 0 then eng.hdr_max hdr else 0
  .ok (lua_pushnumber (int64ToDouble max), hdr)

/-- The function `lhdr_mean`. -/
def lhdr_mean (eng : Engine) (stack : List LuaValue) :
    Except Fault (LuaScalar × hdr_histogram) :=
  (check_hdrhistogram stack 1).bind fun hdr =>
  let mean : LuaFloat := if hdr.total_count > 0 then eng.hdr_mean hdr else .finite 0 0
  .ok (lua_pushnumber mean, hdr)

/-- The function `lhdr_stddev`. -/
def lhdr_stddev (eng : Engine) (stack : List LuaValue) :
    Except Fault (LuaScalar × hdr_histogram) :=
  (check_hdrhistogram stack 1).bind fun hdr =>
  let stddev : LuaFloat := if hdr.total_count > 0 then eng.hdr_stddev hdr else .finite 0 0
  .ok (lua_pushnumber stddev, hdr)

/-- The function `lhdr_percentile`. -/
def lhdr_percentile (eng : Engine) (stack : List LuaValue) :
    Except Fault (LuaScalar × hdr_histogram) :=
  (check_hdrhistogram stack 2).bind fun hdr =>
  (luaL_checknumber (stack.getD 1 (.scalar .nil))).bind fun percentile =>
  .ok (lua_pushnumber (int64ToDouble (eng.hdr_value_at_percentile hdr percentile)), hdr)

/-- The macro `add_hdr_property_to_table`: push the field as a `lua_Number`
and store it under the field's name. -/
def add_hdr_property_to_table (t : LuaTable) (propname : String) (value : LuaFloat) :
    LuaTable :=
  lua_setfield t propname (.scalar (lua_pushnumber value))

/-- The loop of `lhdr_serialize`: cell `i` is pushed as an integer and stored
under key `i+1`. -/
def serialize_counts (ver : LuaVersion) (hdr : hdr_histogram) : List LuaScalar :=
  Nat.fold (fun i items => lua_rawseti items (i + 1) (lua_pushinteger ver (hdr.counts.getD i 0)))
    hdr.counts_len.toNat []

/-- The function `lhdr_serialize`. -/
def lhdr_serialize (ver : LuaVersion) (stack : List LuaValue) :
    Except Fault (LuaTable × hdr_histogram) :=
  (check_hdrhistogram stack 1).bind fun hdr =>
  let t := lua_newtable
  let t := add_hdr_property_to_table t "lowest_trackable_value"
    (int64ToDouble hdr.lowest_trackable_value)
  let t := add_hdr_property_to_table t "highest_trackable_value"
    (int64ToDouble hdr.highest_trackable_value)
  let t := add_hdr_property_to_table t "unit_magnitude" (int64ToDouble hdr.unit_magnitude)
  let t := add_hdr_property_to_table t "significant_figures"
    (int64ToDouble hdr.significant_figures)
  let t := add_hdr_property_to_table t "sub_bucket_half_count_magnitude"
    (int64ToDouble hdr.sub_bucket_half_count_magnitude)
  let t := add_hdr_property_to_table t "sub_bucket_half_count"
    (int64ToDouble hdr.sub_bucket_half_count)
  let t := add_hdr_property_to_table t "sub_bucket_mask" (int64ToDouble hdr.sub_bucket_mask)
  let t := add_hdr_property_to_table t "sub_bucket_count" (int64ToDouble hdr.sub_bucket_count)
  let t := add_hdr_property_to_table t "bucket_count" (int64ToDouble hdr.bucket_count)
  let t := add_hdr_property_to_table t "min_value" (int64ToDouble hdr.min_value)
  let t := add_hdr_property_to_table t "max_value" (int64ToDouble hdr.max_value)
  let t := add_hdr_property_to_table t "normalizing_index_offset"
    (int64ToDouble hdr.normalizing_index_offset)
  let t := add_hdr_property_to_table t "conversion_ratio" hdr.conversion_ratio
  let t := add_hdr_property_to_table t "counts_len" (int64ToDouble hdr.counts_len)
  let t := add_hdr_property_to_table t "total_count" (int64ToDouble hdr.total_count)
  let t := lua_setfield t "counts" (.sequence (serialize_counts ver hdr))
  .ok (t, hdr)

/-- The block `lua_newuserdata` returns in `lhdr_unserialize`: it is not
cleared, so the fields hold whatever `junk` was in memory and cell `i` holds
`cellJunk i`. -/
def lua_newuserdata (junk : hdr_histogram) (cellJunk : Nat → Int) (counts_len : Nat) :
    hdr_histogram :=
  { junk with counts := (List.range counts_len).map cellJunk }

/-- The macros `unserialize_hdr_int_property` and
`unserialize_hdr_float_property`: read the field, cast the `lua_Number`. -/
def unserialize_hdr_property {α : Type} (t : LuaTable) (propname : String)
    (cast : LuaFloat → Except Fault α) : Except Fault α :=
  cast (lua_tonumber (lua_getfield t propname))

/-- The loop of `lhdr_unserialize`: cell `i` is read from key `i+1` of the
value under `counts`. -/
def unserialize_counts (ver : LuaVersion) (counts : LuaItem) (counts_len : Nat)
    (cells : List Int) : Except Fault (List Int) :=
  forLoop (fun i cells =>
      (lua_rawgeti counts (i + 1)).bind fun v =>
      (v.tointeger ver).bind fun c =>
      .ok (cells.set i c))
    counts_len cells

/-- The function `lhdr_unserialize`.  A negative `counts_len` makes the block
smaller than the fields written to it, and one above `INT_MAX` overflows the
loop counter. -/
def lhdr_unserialize (ver : LuaVersion) (junk : hdr_histogram) (cellJunk : Nat → Int)
    (stack : List LuaValue) : Except Fault hdr_histogram :=
  match stack with
  | .table t :: _ =>
    (lua_tointeger ver (lua_getfield t "counts_len")).bind fun counts_len =>
    if counts_len < 0 ∨ INT32_MAX < counts_len then .error .undefined else
    let hdr := lua_newuserdata junk cellJunk counts_len.toNat
    (unserialize_hdr_property t "lowest_trackable_value" castInt64).bind fun v =>
    let hdr := { hdr with lowest_trackable_value := v }
    (unserialize_hdr_property t "highest_trackable_value" castInt64).bind fun v =>
    let hdr := { hdr with highest_trackable_value := v }
    (unserialize_hdr_property t "unit_magnitude" castInt32).bind fun v =>
    let hdr := { hdr with unit_magnitude := v }
    (unserialize_hdr_property t "significant_figures" castInt64).bind fun v =>
    let hdr := { hdr with significant_figures := v }
    (unserialize_hdr_property t "sub_bucket_half_count_magnitude" castInt32).bind fun v =>
    let hdr := { hdr with sub_bucket_half_count_magnitude := v }
    (unserialize_hdr_property t "sub_bucket_half_count" castInt32).bind fun v =>
    let hdr := { hdr with sub_bucket_half_count := v }
    (unserialize_hdr_property t "sub_bucket_mask" castInt64).bind fun v =>
    let hdr := { hdr with sub_bucket_mask := v }
    (unserialize_hdr_property t "sub_bucket_count" castInt32).bind fun v =>
    let hdr := { hdr with sub_bucket_count := v }
    (unserialize_hdr_property t "bucket_count" castInt32).bind fun v =>
    let hdr := { hdr with bucket_count := v }
    (unserialize_hdr_property t "min_value" castInt64).bind fun v =>
    let hdr := { hdr with min_value := v }
    (unserialize_hdr_property t "max_value" castInt64).bind fun v =>
    let hdr := { hdr with max_value := v }
    (unserialize_hdr_property t "normalizing_index_offset" castInt32).bind fun v =>
    let hdr := { hdr with normalizing_index_offset := v }
    (unserialize_hdr_property t "conversion_ratio" Except.ok).bind fun v =>
    let hdr := { hdr with conversion_ratio := v }
    let hdr := { hdr with counts_len := wrap32 counts_len }
    (unserialize_hdr_property t "total_count" castInt64).bind fun v =>
    let hdr := { hdr with total_count := v }
    (unserialize_counts ver (lua_getfield t "counts") counts_len.toNat hdr.counts).bind
      fun cells =>
    .ok { hdr with counts := cells }
  | _ => .error .assertion

/-! ## Predicates used in the statements -/

/-- The 64-bit integer `n` survives the conversion to `double` unchanged. -/
def DoubleExact (n : Int) : Prop := roundDouble n = n

instance (n : Int) : Decidable (DoubleExact n) := by unfold DoubleExact; infer_instance

/-- The integer a `double` holds, when its value is integral. -/
def LuaFloat.toInt? (d : LuaFloat) : Option Int := if d.isIntegral then d.trunc else none

/-- The scalar is a number whose value is exactly the integer `n`, and stays
`n` when read as a `lua_Number`. -/
def LuaScalar.HoldsInt (v : LuaScalar) (n : Int) : Prop :=
  match v with
  | .number (.float d) => d.toInt? = some n
  | .number (.integer m) => m = n ∧ DoubleExact n
  | _ => False

instance (v : LuaScalar) (n : Int) : Decidable (v.HoldsInt n) := by
  unfold LuaScalar.HoldsInt; split <;> infer_instance

/-- The scalar is a number that `lua_tointeger` reads as exactly `n`: as
`HoldsInt`, and in Lua 5.3 also any integer `n`. -/
def LuaScalar.HoldsCell (ver : LuaVersion) (v : LuaScalar) (n : Int) : Prop :=
  match ver, v with
  | .lua53, .number (.integer m) => m = n
  | _, v => v.HoldsInt n

instance (ver : LuaVersion) (v : LuaScalar) (n : Int) : Decidable (v.HoldsCell ver n) := by
  unfold LuaScalar.HoldsCell; split <;> infer_instance

/-- The field value is a number whose value is exactly the integer `n`. -/
def LuaItem.HoldsInt (i : LuaItem) (n : Int) : Prop :=
  match i with
  | .scalar v => v.HoldsInt n
  | .sequence _ => False

instance (i : LuaItem) (n : Int) : Decidable (i.HoldsInt n) := by
  unfold LuaItem.HoldsInt; split <;> infer_instance

/-- The field holds the integer `n`, or is absent and `n` is 0. -/
def LuaItem.HoldsIntOrAbsent (i : LuaItem) (n : Int) : Prop :=
  i.HoldsInt n ∨ (i = .scalar .nil ∧ n = 0)

instance (i : LuaItem) (n : Int) : Decidable (i.HoldsIntOrAbsent n) := by
  unfold LuaItem.HoldsIntOrAbsent; infer_instance

/-- Each of the fourteen integer fields of `h` is related by `P` to the table
entry of the same name, and the number read from `conversion_ratio` is
`h.conversion_ratio`. -/
def SnapshotFields (P : LuaItem → Int → Prop) (t : LuaTable) (h : hdr_histogram) : Prop :=
  P (lua_getfield t "lowest_trackable_value") h.lowest_trackable_value ∧
  P (lua_getfield t "highest_trackable_value") h.highest_trackable_value ∧
  P (lua_getfield t "unit_magnitude") h.unit_magnitude ∧
  P (lua_getfield t "significant_figures") h.significant_figures ∧
  P (lua_getfield t "sub_bucket_half_count_magnitude") h.sub_bucket_half_count_magnitude ∧
  P (lua_getfield t "sub_bucket_half_count") h.sub_bucket_half_count ∧
  P (lua_getfield t "sub_bucket_mask") h.sub_bucket_mask ∧
  P (lua_getfield t "sub_bucket_count") h.sub_bucket_count ∧
  P (lua_getfield t "bucket_count") h.bucket_count ∧
  P (lua_getfield t "min_value") h.min_value ∧
  P (lua_getfield t "max_value") h.max_value ∧
  P (lua_getfield t "normalizing_index_offset") h.normalizing_index_offset ∧
  P (lua_getfield t "counts_len") h.counts_len ∧
  P (lua_getfield t "total_count") h.total_count ∧
  lua_tonumber (lua_getfield t "conversion_ratio") = h.conversion_ratio

instance (P : LuaItem → Int → Prop) [∀ i n, Decidable (P i n)] (t : LuaTable)
    (h : hdr_histogram) : Decidable (SnapshotFields P t h) := by
  unfold SnapshotFields; infer_instance

/-- The entries of a sequence hold, position by position, the integers `vals`. -/
def CellsHold (ver : LuaVersion) (items : List LuaScalar) (vals : List Int) : Prop :=
  items.length = vals.length ∧ ∀ p ∈ items.zip vals, p.1.HoldsCell ver p.2

instance (ver : LuaVersion) (items : List LuaScalar) (vals : List Int) :
    Decidable (CellsHold ver items vals) := by
  unfold CellsHold; infer_instance

/-- Every integer field of `h` converts to `double` without rounding. -/
def hdr_histogram.ScalarsExact (h : hdr_histogram) : Prop :=
  DoubleExact h.lowest_trackable_value ∧ DoubleExact h.highest_trackable_value ∧
  DoubleExact h.unit_magnitude ∧ DoubleExact h.significant_figures ∧
  DoubleExact h.sub_bucket_half_count_magnitude ∧ DoubleExact h.sub_bucket_half_count ∧
  DoubleExact h.sub_bucket_mask ∧ DoubleExact h.sub_bucket_count ∧
  DoubleExact h.bucket_count ∧ DoubleExact h.min_value ∧ DoubleExact h.max_value ∧
  DoubleExact h.normalizing_index_offset ∧ DoubleExact h.counts_len ∧
  DoubleExact h.total_count

instance (h : hdr_histogram) : Decidable h.ScalarsExact := by
  unfold hdr_histogram.ScalarsExact; infer_instance

/-- Every cell of `h` survives `lua_pushinteger`: always in Lua 5.3, and in
Lua 5.1 when it converts to `double` without rounding. -/
def hdr_histogram.CellsExact (ver : LuaVersion) (h : hdr_histogram) : Prop :=
  ver = .lua53 ∨ ∀ c ∈ h.counts, DoubleExact c

instance (ver : LuaVersion) (h : hdr_histogram) : Decidable (h.CellsExact ver) := by
  unfold hdr_histogram.CellsExact; infer_instance

deriving instance DecidableEq for Except

/-- What one turn of the loop of `lhdr_unserialize` reads for cell `i`. -/
def read_cell (ver : LuaVersion) (counts : LuaItem) (i : Nat) : Except Fault Int :=
  (lua_rawgeti counts (i + 1)).bind fun v => v.tointeger ver

/-- The first `n` cells as the loop of `lhdr_unserialize` reads them. -/
def read_cells (ver : LuaVersion) (counts : LuaItem) : Nat → Except Fault (List Int)
  | 0 => .ok []
  | n + 1 =>
    (read_cells ver counts n).bind fun vs =>
    (read_cell ver counts n).bind fun c => .ok (vs ++ [c])

/-- The histogram `lhdr_unserialize` builds, written as a function of the
table alone: the fifteen field reads in source order, then the cell reads. -/
def unserialize_reads (ver : LuaVersion) (t : LuaTable) : Except Fault hdr_histogram :=
  (lua_tointeger ver (lua_getfield t "counts_len")).bind fun counts_len =>
  if counts_len < 0 ∨ INT32_MAX < counts_len then .error .undefined else
  (castInt64 (lua_tonumber (lua_getfield t "lowest_trackable_value"))).bind fun v1 =>
  (castInt64 (lua_tonumber (lua_getfield t "highest_trackable_value"))).bind fun v2 =>
  (castInt32 (lua_tonumber (lua_getfield t "unit_magnitude"))).bind fun v3 =>
  (castInt64 (lua_tonumber (lua_getfield t "significant_figures"))).bind fun v4 =>
  (castInt32 (lua_tonumber (lua_getfield t "sub_bucket_half_count_magnitude"))).bind fun v5 =>
  (castInt32 (lua_tonumber (lua_getfield t "sub_bucket_half_count"))).bind fun v6 =>
  (castInt64 (lua_tonumber (lua_getfield t "sub_bucket_mask"))).bind fun v7 =>
  (castInt32 (lua_tonumber (lua_getfield t "sub_bucket_count"))).bind fun v8 =>
  (castInt32 (lua_tonumber (lua_getfield t "bucket_count"))).bind fun v9 =>
  (castInt64 (lua_tonumber (lua_getfield t "min_value"))).bind fun v10 =>
  (castInt64 (lua_tonumber (lua_getfield t "max_value"))).bind fun v11 =>
  (castInt32 (lua_tonumber (lua_getfield t "normalizing_index_offset"))).bind fun v12 =>
  (castInt64 (lua_tonumber (lua_getfield t "total_count"))).bind fun v15 =>
  (read_cells ver (lua_getfield t "counts") counts_len.toNat).bind fun cells =>
  .ok { lowest_trackable_value := v1, highest_trackable_value := v2, unit_magnitude := v3,
        significant_figures := v4, sub_bucket_half_count_magnitude := v5,
        sub_bucket_half_count := v6, sub_bucket_mask := v7, sub_bucket_count := v8,
        bucket_count := v9, min_value := v10, max_value := v11,
        normalizing_index_offset := v12,
        conversion_ratio := lua_tonumber (lua_getfield t "conversion_ratio"),
        counts_len := wrap32 counts_len, total_count := v15, counts := cells }

/-! ## Further helper definitions -/

/-- The sixteen keys `lhdr_serialize` stores, newest first. -/
def snapshot_keys : List String :=
  ["counts", "total_count", "counts_len", "conversion_ratio", "normalizing_index_offset",
   "max_value", "min_value", "bucket_count", "sub_bucket_count", "sub_bucket_mask",
   "sub_bucket_half_count", "sub_bucket_half_count_magnitude", "significant_figures",
   "unit_magnitude", "highest_trackable_value", "lowest_trackable_value"]

/-- The table without the entries whose key `lhdr_serialize` never stores. -/
def LuaTable.restrict (t : LuaTable) : LuaTable :=
  { fields := t.fields.filter fun kv => snapshot_keys.contains kv.1 }

/-! ## Example objects -/

/-- A table entry holding the integer `n` as a float. -/
def LuaItem.ofInt (n : Int) : LuaItem := .scalar (.number (.float (.finite n 0)))

/-- Memory contents with every field and cell non-zero. -/
def junk_histogram : hdr_histogram :=
  { lowest_trackable_value := 7, highest_trackable_value := 7, unit_magnitude := 7,
    significant_figures := 7, sub_bucket_half_count_magnitude := 7,
    sub_bucket_half_count := 7, sub_bucket_mask := 7, sub_bucket_count := 7,
    bucket_count := 7, min_value := 7, max_value := 7, normalizing_index_offset := 7,
    conversion_ratio := .nan, counts_len := 7, total_count := 7, counts := [] }

/-- A snapshot with every field present and two cells, whose `counts_len` is
not `(bucket_count + 1) * sub_bucket_half_count` and whose `total_count` is
not the sum of its cells. -/
def snapshot_inconsistent : LuaTable :=
  { fields := [
      ("lowest_trackable_value", .ofInt 1), ("highest_trackable_value", .ofInt 1000),
      ("unit_magnitude", .ofInt 0), ("significant_figures", .ofInt 1),
      ("sub_bucket_half_count_magnitude", .ofInt 4), ("sub_bucket_half_count", .ofInt 16),
      ("sub_bucket_mask", .ofInt 31), ("sub_bucket_count", .ofInt 32),
      ("bucket_count", .ofInt 6), ("min_value", .ofInt 3), ("max_value", .ofInt 900),
      ("normalizing_index_offset", .ofInt 0),
      ("conversion_ratio", .scalar (.number (.float (.finite 1 0)))),
      ("counts_len", .ofInt 2), ("total_count", .ofInt 100),
      ("counts", .sequence [.number (.float (.finite 1 0)), .number (.float (.finite 2 0))])] }

/-- The histogram `snapshot_inconsistent` describes. -/
def histogram_inconsistent : hdr_histogram :=
  { lowest_trackable_value := 1, highest_trackable_value := 1000, unit_magnitude := 0,
    significant_figures := 1, sub_bucket_half_count_magnitude := 4,
    sub_bucket_half_count := 16, sub_bucket_mask := 31, sub_bucket_count := 32,
    bucket_count := 6, min_value := 3, max_value := 900, normalizing_index_offset := 0,
    conversion_ratio := .finite 1 0, counts_len := 2, total_count := 100,
    counts := [1, 2] }

/-- The table `snapshot_inconsistent` with the entry under one key replaced. -/
def snapshot_with (k : String) (v : LuaItem) : LuaTable :=
  lua_setfield snapshot_inconsistent k v

/-- The snapshot `snapshot_inconsistent` with `total_count` set to 1.5. -/
def snapshot_fractional : LuaTable :=
  snapshot_with "total_count" (.scalar (.number (.float (.finite 3 (-1)))))

/-- The snapshot `snapshot_inconsistent` with `total_count` set to the Lua 5.3
integer `2^53 + 1`. -/
def snapshot_big_integer : LuaTable :=
  snapshot_with "total_count" (.scalar (.number (.integer (2 ^ 53 + 1))))

/-- The snapshot `snapshot_inconsistent` with a `counts` sequence of one entry
under a `counts_len` of 2. -/
def snapshot_short_counts : LuaTable :=
  snapshot_with "counts" (.sequence [.number (.float (.finite 5 0))])

/-- A snapshot holding only `total_count`, `counts_len` and `counts`. -/
def snapshot_sparse : LuaTable :=
  { fields := [("total_count", .ofInt 3), ("counts_len", .ofInt 1),
      ("counts", .sequence [.number (.float (.finite 3 0))])] }

/-- The histogram read from `snapshot_sparse`. -/
def histogram_sparse : hdr_histogram :=
  { zeroed_histogram 1 with counts_len := 1, total_count := 3, counts := [3] }

/-- A histogram of 112 cells in which the value 5 has been counted
`2^53 + 1` times. -/
def histogram_big : hdr_histogram :=
  { lowest_trackable_value := 1, highest_trackable_value := 1000, unit_magnitude := 0,
    significant_figures := 1, sub_bucket_half_count_magnitude := 4,
    sub_bucket_half_count := 16, sub_bucket_mask := 31, sub_bucket_count := 32,
    bucket_count := 6, min_value := 5, max_value := 5, normalizing_index_offset := 0,
    conversion_ratio := .finite 1 0, counts_len := 112, total_count := 2 ^ 53 + 1,
    counts := List.replicate 5 0 ++ [2 ^ 53 + 1] ++ List.replicate 106 0 }

/-- The composition `unserialize(serialize(h))`, the new block holding `junk`
and `cellJunk` before it is filled. -/
def round_trip (ver : LuaVersion) (junk : hdr_histogram) (cellJunk : Nat → Int)
    (h : hdr_histogram) : Except Fault hdr_histogram :=
  (lhdr_serialize ver [.userdata h]).bind fun r =>
  lhdr_unserialize ver junk cellJunk [.table r.1]

/-- An engine whose `hdr_min` and `hdr_max` return the stored fields, whose
`hdr_mean` and `hdr_stddev` return the stored ratio, and which accepts every
configuration request with a layout of no cells. -/
def stored_fields_engine : Engine :=
  { hdr_calculate_bucket_config := fun lowest highest figures =>
      some { lowest_trackable_value := lowest, highest_trackable_value := highest,
             unit_magnitude := 0, significant_figures := figures,
             sub_bucket_half_count_magnitude := 0, sub_bucket_half_count := 0,
             sub_bucket_mask := 0, sub_bucket_count := 0, bucket_count := 0,
             counts_len := 0 },
    hdr_init_preallocated := fun h cfg =>
      { h with lowest_trackable_value := cfg.lowest_trackable_value,
               highest_trackable_value := cfg.highest_trackable_value,
               significant_figures := cfg.significant_figures },
    hdr_min := fun h => h.min_value,
    hdr_max := fun h => h.max_value,
    hdr_mean := fun h => h.conversion_ratio,
    hdr_stddev := fun h => h.conversion_ratio,
    hdr_value_at_percentile := fun h _ => h.max_value }

/-- A histogram with one recorded value, `2^53 + 1`. -/
def histogram_large_value : hdr_histogram :=
  { histogram_inconsistent with
    min_value := 2 ^ 53 + 1, max_value := 2 ^ 53 + 1, total_count := 1, counts := [0, 1] }

/-- An empty histogram whose `min_value` is the largest `int64_t` and whose
`max_value` is not zero. -/
def histogram_empty : hdr_histogram :=
  { histogram_inconsistent with
    min_value := INT64_MAX, max_value := 12, total_count := 0, counts := [0, 0] }

/-- The 64-bit integer `n` as a Lua argument: a float in Lua 5.1, an integer
in Lua 5.3. -/
def LuaValue.ofInt (ver : LuaVersion) (n : Int) : LuaValue :=
  match ver with
  | .lua51 => .scalar (.number (.float (.finite n 0)))
  | .lua53 => .scalar (.number (.integer n))

/-! ## The engine as the specification describes it -/

/-- Number of binary digits of `n`, by halving at most `fuel` times. -/
def bit_length_aux : Nat → Nat → Nat
  | 0, _ => 0
  | fuel + 1, n => if n = 0 then 0 else 1 + bit_length_aux fuel (n / 2)

/-- Number of binary digits of `n`; the highest set bit of a positive `n` is
at position `bit_length n - 1`. -/
def bit_length (n : Nat) : Nat := bit_length_aux n n

/-- Modelled from the spec: `ceil(log2(n))` of step 2 of section 4.1, for
`n >= 1`; the function `hdr_calculate_bucket_config` is missing from the
sources. -/
def ceil_log2 (n : Nat) : Nat := bit_length (n - 1)

/-- Modelled from the spec: `floor(log2(n))` of step 4 of section 4.1, for
`n >= 1`. -/
def floor_log2 (n : Nat) : Nat := bit_length n - 1

/-- Modelled from the spec: the record BucketConfig of section 3, the result
of `calculate`; `struct hdr_histogram_bucket_config` is its C form and the
header declaring it is missing from the sources. -/
structure BucketConfig where
  lowest_trackable_value : Nat
  highest_trackable_value : Nat
  significant_figures : Nat
  unit_magnitude : Nat
  sub_bucket_half_count_magnitude : Nat
  sub_bucket_count : Nat
  sub_bucket_half_count : Nat
  sub_bucket_mask : Nat
  bucket_count : Nat
  counts_len : Nat
  deriving DecidableEq, Repr

/-- Modelled from the spec: "the largest value representable by the current
bucket_count (sub_bucket_count << (unit_magnitude + bucket_count), adjusted)"
of step 7 of section 4.1, the adjustment being the one that makes the shifted
value what the words before it say: the largest value whose index, under the
encoding of section 4.2, is below the `counts_len` of step 8,
`(bucket_count + 1) × sub_bucket_half_count`.  That is the shifted value less
one, the last value of bucket `bucket_count`; with `bucket_count` 0 the
`counts_len` of step 8 reaches only the lower half of the base range, so the
half count is shifted.  The body of `hdr_calculate_bucket_config` is missing
from the sources. -/
def largest_representable (sub_bucket_count unit_magnitude bucket_count : Nat) : Nat :=
  if bucket_count = 0 then (sub_bucket_count / 2) <<< unit_magnitude - 1
  else sub_bucket_count <<< (unit_magnitude + bucket_count) - 1

/-- Modelled from the spec: step 7 of section 4.1, "grow bucket_count from 0
upward while the largest value representable by the current bucket_count
(sub_bucket_count << (unit_magnitude + bucket_count), adjusted) is < highest".
The recursion is on a count of turns left, and `highest` turns are always
enough.  The body of `hdr_calculate_bucket_config` is missing from the
sources. -/
def grow_bucket_count (sub_bucket_count unit_magnitude highest : Nat) : Nat → Nat → Nat
  | 0, bucket_count => bucket_count
  | fuel + 1, bucket_count =>
    if largest_representable sub_bucket_count unit_magnitude bucket_count < highest then
      grow_bucket_count sub_bucket_count unit_magnitude highest fuel (bucket_count + 1)
    else bucket_count

/-- Modelled from the spec: `calculate` of section 4.1, steps 1 to 8, failing
(`none`) when a precondition is violated or `counts_len` does not fit a
32-bit index.  The body of `hdr_calculate_bucket_config` is missing from the
sources. -/
def calculate (lowest highest significant_figures : Int) : Option BucketConfig :=
  if 1 ≤ lowest ∧ 2 * lowest < highest ∧ 1 ≤ significant_figures ∧ significant_figures ≤ 5 then
    let largest_value_with_single_unit_resolution := 2 * 10 ^ significant_figures.toNat
    let sub_bucket_count_magnitude := ceil_log2 largest_value_with_single_unit_resolution
    let sub_bucket_half_count_magnitude := max (sub_bucket_count_magnitude - 1) 1
    let unit_magnitude := floor_log2 lowest.toNat
    let sub_bucket_count := 2 ^ (sub_bucket_half_count_magnitude + 1)
    let sub_bucket_half_count := sub_bucket_count / 2
    let sub_bucket_mask := (sub_bucket_count - 1) <<< unit_magnitude
    let bucket_count :=
      grow_bucket_count sub_bucket_count unit_magnitude highest.toNat highest.toNat 0
    let counts_len := (bucket_count + 1) * sub_bucket_half_count
    if counts_len < 2 ^ 31 then
      some { lowest_trackable_value := lowest.toNat, highest_trackable_value := highest.toNat,
             significant_figures := significant_figures.toNat,
             unit_magnitude := unit_magnitude,
             sub_bucket_half_count_magnitude := sub_bucket_half_count_magnitude,
             sub_bucket_count := sub_bucket_count,
             sub_bucket_half_count := sub_bucket_half_count,
             sub_bucket_mask := sub_bucket_mask,
             bucket_count := bucket_count, counts_len := counts_len }
    else none
  else none

/-- Modelled from the spec: `bucket_index` of section 4.2, "the position of
the highest set bit of (value >> unit_magnitude) | sub_bucket_mask_complement,
i.e., the number of doublings beyond the base range".  The mask is taken as
the base range's `sub_bucket_count - 1`, under which the bit position, counted
from the top bit of the base range, is that number of doublings.  The body of
`hdr_record_value` is missing from the sources. -/
def bucket_index (cfg : BucketConfig) (value : Nat) : Nat :=
  bit_length ((value >>> cfg.unit_magnitude) ||| (cfg.sub_bucket_count - 1)) - 1
    - cfg.sub_bucket_half_count_magnitude

/-- Modelled from the spec: `sub_bucket_index` of section 4.2, the value
shifted right by `bucket_index + unit_magnitude`. -/
def sub_bucket_index (cfg : BucketConfig) (value : Nat) : Nat :=
  value >>> (bucket_index cfg value + cfg.unit_magnitude)

/-- Modelled from the spec: the final index of section 4.2,
`bucket_index × sub_bucket_half_count + (sub_bucket_index − sub_bucket_half_count)`
for `bucket_index > 0` and `sub_bucket_index` for `bucket_index == 0`. -/
def counts_index_for (cfg : BucketConfig) (value : Nat) : Nat :=
  if bucket_index cfg value > 0 then
    bucket_index cfg value * cfg.sub_bucket_half_count
      + (sub_bucket_index cfg value - cfg.sub_bucket_half_count)
  else sub_bucket_index cfg value

/-- Modelled from the spec: the decoding of section 4.3, "recover
bucket_index and sub_bucket_index from the linear index, then reconstruct
value = sub_bucket_index << (bucket_index + unit_magnitude)", the pair being
recovered by solving the index formula of section 4.2: the quotient by
`sub_bucket_half_count` is the bucket, and from bucket 1 on the remainder is
the sub-bucket's offset above `sub_bucket_half_count`.  The body of
`hdr_value_at_percentile` is missing from the sources. -/
def value_at_index (cfg : BucketConfig) (index : Nat) : Nat :=
  let bucket := index / cfg.sub_bucket_half_count
  let sub_bucket :=
    if bucket > 0 then index - bucket * cfg.sub_bucket_half_count + cfg.sub_bucket_half_count
    else index
  sub_bucket <<< (bucket + cfg.unit_magnitude)

/-- The layout `calculate 1 1000 1`. -/
def config_1_1000_1 : BucketConfig :=
  { lowest_trackable_value := 1, highest_trackable_value := 1000, significant_figures := 1,
    unit_magnitude := 0, sub_bucket_half_count_magnitude := 4, sub_bucket_count := 32,
    sub_bucket_half_count := 16, sub_bucket_mask := 31, bucket_count := 5, counts_len := 96 }

/-- The layout `calculate 2 1000 1`. -/
def config_2_1000_1 : BucketConfig :=
  { lowest_trackable_value := 2, highest_trackable_value := 1000, significant_figures := 1,
    unit_magnitude := 1, sub_bucket_half_count_magnitude := 4, sub_bucket_count := 32,
    sub_bucket_half_count := 16, sub_bucket_mask := 62, bucket_count := 4, counts_len := 80 }

theorem lostBits_small (a : Nat) (h : a < 2 ^ 53) : lostBits a = 0 := by
  unfold lostBits
  rw [List.length_eq_zero, List.filter_eq_nil_iff]
  intro k hk
  have : 2 ^ 53 ≤ 2 ^ (53 + k) := Nat.pow_le_pow_right (by decide) (by omega)
  simp only [decide_eq_true_eq, not_le]
  omega

theorem roundNat_small (a : Nat) (h : a < 2 ^ 53) : roundNat a = a := by
  unfold roundNat
  simp [lostBits_small a h, Nat.mod_one]

theorem doubleExact_of_small (n : Int) (h1 : -(2 ^ 53) ≤ n) (h2 : n ≤ 2 ^ 53) :
    DoubleExact n := by
  by_cases hp : n = 2 ^ 53
  · subst hp; decide
  by_cases hm : n = -(2 ^ 53)
  · subst hm; decide
  unfold DoubleExact roundDouble
  split
  · rw [roundNat_small]
    · omega
    · omega
  · rw [roundNat_small]
    · omega
    · omega

theorem read_cells_length (ver : LuaVersion) (counts : LuaItem) :
    ∀ (n : Nat) (vs : List Int), read_cells ver counts n = .ok vs → vs.length = n := by
  intro n
  induction n with
  | zero =>
    intro vs h
    simp only [read_cells, Except.ok.injEq] at h
    subst h; rfl
  | succ n ih =>
    intro vs h
    simp only [read_cells] at h
    cases hr : read_cells ver counts n with
    | error e => rw [hr] at h; simp [Except.bind] at h
    | ok ws =>
      rw [hr] at h
      cases hc : read_cell ver counts n with
      | error e => rw [hc] at h; simp [Except.bind] at h
      | ok c =>
        rw [hc] at h
        simp only [Except.bind, Except.ok.injEq] at h
        subst h
        simp [ih ws hr]

theorem unserialize_counts_eq (ver : LuaVersion) (counts : LuaItem) :
    ∀ (n : Nat) (cells : List Int), n ≤ cells.length →
      unserialize_counts ver counts n cells =
        (read_cells ver counts n).bind fun vs => .ok (vs ++ cells.drop n) := by
  intro n
  induction n with
  | zero => intro cells _; simp [unserialize_counts, forLoop, read_cells, Except.bind]
  | succ n ih =>
    intro cells hlen
    have ih1 := ih cells (by omega)
    unfold unserialize_counts at ih1 ⊢
    rw [forLoop, ih1]
    simp only [read_cells]
    cases hr : read_cells ver counts n with
    | error e => simp [Except.bind]
    | ok vs =>
      have hl := read_cells_length ver counts n vs hr
      simp only [Except.bind, read_cell]
      cases hg : lua_rawgeti counts (n + 1) with
      | error e => simp
      | ok v =>
        simp only []
        cases ht : v.tointeger ver with
        | error e => simp
        | ok c =>
          simp only [Except.ok.injEq]
          rw [List.set_append_right _ _ (by omega), hl, Nat.sub_self]
          have hd : cells.drop n = cells[n] :: cells.drop (n + 1) :=
            List.drop_eq_getElem_cons (by omega)
          rw [hd]
          simp only [List.set_cons_zero, List.append_assoc, List.singleton_append]

theorem lhdr_unserialize_eq (ver : LuaVersion) (junk : hdr_histogram) (cellJunk : Nat → Int)
    (t : LuaTable) (rest : List LuaValue) :
    lhdr_unserialize ver junk cellJunk (.table t :: rest) = unserialize_reads ver t := by
  unfold lhdr_unserialize unserialize_reads
  simp only [unserialize_hdr_property]
  refine congrArg _ (funext fun counts_len => ?_)
  split
  · rfl
  · iterate 12 refine congrArg _ (funext fun _ => ?_)
    simp only [Except.bind]
    refine congrArg _ (funext fun _ => ?_)
    rw [unserialize_counts_eq]
    · simp only [lua_newuserdata]
      rw [List.drop_of_length_le (by simp)]
      cases read_cells ver (lua_getfield t "counts") counts_len.toNat with
      | error e => rfl
      | ok cells => simp [Except.bind]
    · simp [lua_newuserdata]

/-- The table `lhdr_serialize` returns. -/
theorem lhdr_serialize_eq (ver : LuaVersion) (h : hdr_histogram) :
    lhdr_serialize ver [.userdata h] = .ok
      ({ fields := [
        ("counts", .sequence (serialize_counts ver h)),
        ("total_count", .scalar (lua_pushnumber (int64ToDouble h.total_count))),
        ("counts_len", .scalar (lua_pushnumber (int64ToDouble h.counts_len))),
        ("conversion_ratio", .scalar (lua_pushnumber h.conversion_ratio)),
        ("normalizing_index_offset", .scalar (lua_pushnumber (int64ToDouble h.normalizing_index_offset))),
        ("max_value", .scalar (lua_pushnumber (int64ToDouble h.max_value))),
        ("min_value", .scalar (lua_pushnumber (int64ToDouble h.min_value))),
        ("bucket_count", .scalar (lua_pushnumber (int64ToDouble h.bucket_count))),
        ("sub_bucket_count", .scalar (lua_pushnumber (int64ToDouble h.sub_bucket_count))),
        ("sub_bucket_mask", .scalar (lua_pushnumber (int64ToDouble h.sub_bucket_mask))),
        ("sub_bucket_half_count", .scalar (lua_pushnumber (int64ToDouble h.sub_bucket_half_count))),
        ("sub_bucket_half_count_magnitude", .scalar (lua_pushnumber (int64ToDouble h.sub_bucket_half_count_magnitude))),
        ("significant_figures", .scalar (lua_pushnumber (int64ToDouble h.significant_figures))),
        ("unit_magnitude", .scalar (lua_pushnumber (int64ToDouble h.unit_magnitude))),
        ("highest_trackable_value", .scalar (lua_pushnumber (int64ToDouble h.highest_trackable_value))),
        ("lowest_trackable_value", .scalar (lua_pushnumber (int64ToDouble h.lowest_trackable_value)))] }, h) := by
  rfl

theorem nat_fold_rawseti (ver : LuaVersion) (cells : List Int) :
    ∀ n, n ≤ cells.length →
      Nat.fold (fun i items => lua_rawseti items (i + 1) (lua_pushinteger ver (cells.getD i 0)))
        n [] = (cells.take n).map (lua_pushinteger ver) := by
  intro n
  induction n with
  | zero => intro _; rfl
  | succ n ih =>
    intro hn
    rw [Nat.fold, ih (by omega)]
    have hlen : ((cells.take n).map (lua_pushinteger ver)).length = n := by
      simp; omega
    unfold lua_rawseti
    rw [if_pos (by rw [hlen])]
    rw [List.take_succ, List.map_append]
    congr 1
    rw [List.getD_eq_getElem _ _ (by omega : n < cells.length)]
    simp [List.getElem?_eq_getElem (by omega : n < cells.length)]

theorem serialize_counts_eq (ver : LuaVersion) (h : hdr_histogram)
    (hl : (h.counts.length : Int) = h.counts_len) :
    serialize_counts ver h = h.counts.map (lua_pushinteger ver) := by
  unfold serialize_counts
  rw [nat_fold_rawseti ver h.counts _ (by omega)]
  rw [List.take_of_length_le (by omega)]

theorem castInt64_of_trunc (d : LuaFloat) (n : Int) (h : d.trunc = some n) (hn : inInt64 n) :
    castInt64 d = .ok n := by
  simp [castInt64, h, hn]

theorem castInt32_of_trunc (d : LuaFloat) (n : Int) (h : d.trunc = some n) (hn : inInt32 n) :
    castInt32 d = .ok n := by
  simp [castInt32, h, hn]

theorem inInt64_of_inInt32 (n : Int) (h : inInt32 n) : inInt64 n := by
  unfold inInt32 INT32_MIN INT32_MAX at h
  unfold inInt64 INT64_MIN INT64_MAX
  omega

theorem trunc_int64ToDouble (n : Int) (h : DoubleExact n) :
    (int64ToDouble n).trunc = some n := by
  unfold DoubleExact at h
  simp [int64ToDouble, LuaFloat.trunc, h]

theorem toInt?_eq_some (d : LuaFloat) (n : Int) (h : d.toInt? = some n) :
    d.isIntegral = true ∧ d.trunc = some n := by
  unfold LuaFloat.toInt? at h
  split at h
  · exact ⟨by assumption, h⟩
  · cases h

theorem scalar_tonumber_trunc (v : LuaScalar) (n : Int) (h : v.HoldsInt n) :
    v.tonumber.trunc = some n := by
  unfold LuaScalar.HoldsInt at h
  split at h
  · exact (toInt?_eq_some _ _ h).2
  · obtain ⟨rfl, he⟩ := h
    exact trunc_int64ToDouble _ he
  · exact h.elim

theorem item_tonumber_trunc (i : LuaItem) (n : Int) (h : i.HoldsIntOrAbsent n) :
    (lua_tonumber i).trunc = some n := by
  rcases h with h | ⟨rfl, rfl⟩
  · unfold LuaItem.HoldsInt at h
    split at h
    · exact scalar_tonumber_trunc _ _ h
    · exact h.elim
  · simp [lua_tonumber, LuaScalar.tonumber, LuaFloat.trunc]

theorem scalar_tointeger_of_holdsInt (ver : LuaVersion) (v : LuaScalar) (n : Int)
    (h : v.HoldsInt n) (hn : inInt64 n) : v.tointeger ver = .ok n := by
  unfold LuaScalar.HoldsInt at h
  split at h
  · obtain ⟨hi, ht⟩ := toInt?_eq_some _ _ h
    cases ver
    · simp [LuaScalar.tointeger, LuaNumber.tointeger, castInt64, ht, hn]
    · simp [LuaScalar.tointeger, LuaNumber.tointeger, ht, hn, hi]
  · obtain ⟨rfl, he⟩ := h
    cases ver
    · simp [LuaScalar.tointeger, LuaNumber.tointeger, castInt64, trunc_int64ToDouble _ he, hn]
    · simp [LuaScalar.tointeger, LuaNumber.tointeger]
  · exact h.elim

theorem scalar_tointeger_of_holdsCell (ver : LuaVersion) (v : LuaScalar) (n : Int)
    (h : v.HoldsCell ver n) (hn : inInt64 n) : v.tointeger ver = .ok n := by
  unfold LuaScalar.HoldsCell at h
  split at h
  · subst h
    simp [LuaScalar.tointeger, LuaNumber.tointeger]
  · exact scalar_tointeger_of_holdsInt _ _ _ h hn

theorem item_tointeger (ver : LuaVersion) (i : LuaItem) (n : Int)
    (h : i.HoldsIntOrAbsent n) (hn : inInt64 n) : lua_tointeger ver i = .ok n := by
  rcases h with h | ⟨rfl, rfl⟩
  · unfold LuaItem.HoldsInt at h
    split at h
    · exact scalar_tointeger_of_holdsInt _ _ _ h hn
    · exact h.elim
  · rfl

theorem wrap32_of_inInt32 (n : Int) (h : inInt32 n) : wrap32 n = n := by
  unfold inInt32 INT32_MIN INT32_MAX at h
  unfold wrap32
  omega

theorem unserialize_reads_of_fields (ver : LuaVersion) (t : LuaTable) (h : hdr_histogram)
    (cells : List Int) (hf : SnapshotFields LuaItem.HoldsIntOrAbsent t h)
    (ht : h.ScalarsTyped) (h0 : 0 ≤ h.counts_len)
    (hc : read_cells ver (lua_getfield t "counts") h.counts_len.toNat = .ok cells) :
    unserialize_reads ver t = .ok { h with counts := cells } := by
  obtain ⟨f1, f2, f3, f4, f5, f6, f7, f8, f9, f10, f11, f12, f13, f14, f15⟩ := hf
  obtain ⟨t1, t2, t3, t4, t5, t6, t7, t8, t9, t10, t11, t12, t13, t14⟩ := ht
  unfold unserialize_reads
  rw [item_tointeger ver _ _ f13 (inInt64_of_inInt32 _ t13)]
  have hguard : ¬ (h.counts_len < 0 ∨ INT32_MAX < h.counts_len) := by
    have := t13.2
    omega
  simp only [Except.bind, if_neg hguard]
  rw [castInt64_of_trunc _ _ (item_tonumber_trunc _ _ f1) t1,
    castInt64_of_trunc _ _ (item_tonumber_trunc _ _ f2) t2,
    castInt32_of_trunc _ _ (item_tonumber_trunc _ _ f3) t3,
    castInt64_of_trunc _ _ (item_tonumber_trunc _ _ f4) t4,
    castInt32_of_trunc _ _ (item_tonumber_trunc _ _ f5) t5,
    castInt32_of_trunc _ _ (item_tonumber_trunc _ _ f6) t6,
    castInt64_of_trunc _ _ (item_tonumber_trunc _ _ f7) t7,
    castInt32_of_trunc _ _ (item_tonumber_trunc _ _ f8) t8,
    castInt32_of_trunc _ _ (item_tonumber_trunc _ _ f9) t9,
    castInt64_of_trunc _ _ (item_tonumber_trunc _ _ f10) t10,
    castInt64_of_trunc _ _ (item_tonumber_trunc _ _ f11) t11,
    castInt32_of_trunc _ _ (item_tonumber_trunc _ _ f12) t12,
    castInt64_of_trunc _ _ (item_tonumber_trunc _ _ f14) t14]
  simp only [hc, f15, wrap32_of_inInt32 _ t13]

theorem read_cell_sequence (ver : LuaVersion) (items : List LuaScalar) (vals : List Int)
    (hh : CellsHold ver items vals) (hr : ∀ c ∈ vals, inInt64 c) (n : Nat) :
    read_cell ver (.sequence items) n = .ok (vals.getD n 0) := by
  obtain ⟨hlen, hz⟩ := hh
  unfold read_cell lua_rawgeti
  simp only [Except.bind, Nat.add_one_ne_zero, if_false, Nat.add_sub_cancel]
  by_cases hn : n < items.length
  · have hn2 : n < vals.length := by omega
    rw [List.getD_eq_getElem _ _ hn, List.getD_eq_getElem _ _ hn2]
    have hmem : (items[n], vals[n]) ∈ items.zip vals := by
      have hlz : n < (items.zip vals).length := by simp; omega
      have := List.getElem_mem hlz
      simpa using this
    exact scalar_tointeger_of_holdsCell ver _ _ (hz _ hmem) (hr _ (List.getElem_mem hn2))
  · rw [List.getD_eq_default _ _ (by omega), List.getD_eq_default _ _ (by omega)]
    rfl

theorem read_cells_sequence (ver : LuaVersion) (items : List LuaScalar) (vals : List Int)
    (hh : CellsHold ver items vals) (hr : ∀ c ∈ vals, inInt64 c) (n : Nat) :
    read_cells ver (.sequence items) n = .ok ((List.range n).map fun i => vals.getD i 0) := by
  induction n with
  | zero => rfl
  | succ n ih =>
    simp only [read_cells, ih, Except.bind, read_cell_sequence ver items vals hh hr n]
    rw [List.range_succ, List.map_append]
    rfl

theorem map_getD_range (vals : List Int) :
    ((List.range vals.length).map fun i => vals.getD i 0) = vals := by
  apply List.ext_getElem
  · simp
  · intro i h1 h2
    simp [List.getElem?_eq_getElem h2]

theorem lookup_filter_key (l : List (String × LuaItem)) (p : String → Bool) (k : String)
    (hk : p k = true) : (l.filter fun kv => p kv.1).lookup k = l.lookup k := by
  induction l with
  | nil => rfl
  | cons a l ih =>
    obtain ⟨k', v⟩ := a
    by_cases hp : p k' = true
    · rw [List.filter_cons_of_pos (by simpa using hp)]
      simp only [List.lookup]
      split <;> simp_all
    · rw [List.filter_cons_of_neg (by simpa using hp)]
      have hne : (k == k') = false := by
        rw [beq_eq_false_iff_ne]
        intro h
        subst h
        exact hp hk
      simp only [List.lookup, hne, ih]

theorem getfield_restrict (t : LuaTable) (k : String) (hk : snapshot_keys.contains k = true) :
    lua_getfield t.restrict k = lua_getfield t k := by
  unfold lua_getfield LuaTable.restrict
  rw [lookup_filter_key t.fields (fun k => snapshot_keys.contains k) k hk]

theorem unserialize_reads_restrict (ver : LuaVersion) (t : LuaTable) :
    unserialize_reads ver t.restrict = unserialize_reads ver t := by
  unfold unserialize_reads
  simp only [getfield_restrict _ _ (by decide : snapshot_keys.contains "counts_len" = true),
    getfield_restrict _ _ (by decide : snapshot_keys.contains "lowest_trackable_value" = true),
    getfield_restrict _ _ (by decide : snapshot_keys.contains "highest_trackable_value" = true),
    getfield_restrict _ _ (by decide : snapshot_keys.contains "unit_magnitude" = true),
    getfield_restrict _ _ (by decide : snapshot_keys.contains "significant_figures" = true),
    getfield_restrict _ _ (by decide : snapshot_keys.contains "sub_bucket_half_count_magnitude" = true),
    getfield_restrict _ _ (by decide : snapshot_keys.contains "sub_bucket_half_count" = true),
    getfield_restrict _ _ (by decide : snapshot_keys.contains "sub_bucket_mask" = true),
    getfield_restrict _ _ (by decide : snapshot_keys.contains "sub_bucket_count" = true),
    getfield_restrict _ _ (by decide : snapshot_keys.contains "bucket_count" = true),
    getfield_restrict _ _ (by decide : snapshot_keys.contains "min_value" = true),
    getfield_restrict _ _ (by decide : snapshot_keys.contains "max_value" = true),
    getfield_restrict _ _ (by decide : snapshot_keys.contains "normalizing_index_offset" = true),
    getfield_restrict _ _ (by decide : snapshot_keys.contains "conversion_ratio" = true),
    getfield_restrict _ _ (by decide : snapshot_keys.contains "total_count" = true),
    getfield_restrict _ _ (by decide : snapshot_keys.contains "counts" = true)]

theorem bind_eq_ok {α β : Type} (x : Except Fault α) (f : α → Except Fault β) (b : β)
    (h : x.bind f = .ok b) : ∃ a, x = .ok a ∧ f a = .ok b := by
  cases x with
  | error e => simp [Except.bind] at h
  | ok a => exact ⟨a, rfl, h⟩

theorem unserialize_reads_ok (ver : LuaVersion) (t : LuaTable) (h : hdr_histogram)
    (hr : unserialize_reads ver t = .ok h) :
    ∃ counts_len : Int,
      lua_tointeger ver (lua_getfield t "counts_len") = .ok counts_len ∧
      0 ≤ counts_len ∧ counts_len ≤ INT32_MAX ∧
      castInt64 (lua_tonumber (lua_getfield t "lowest_trackable_value")) = .ok h.lowest_trackable_value ∧
      castInt64 (lua_tonumber (lua_getfield t "highest_trackable_value")) = .ok h.highest_trackable_value ∧
      castInt32 (lua_tonumber (lua_getfield t "unit_magnitude")) = .ok h.unit_magnitude ∧
      castInt64 (lua_tonumber (lua_getfield t "significant_figures")) = .ok h.significant_figures ∧
      castInt32 (lua_tonumber (lua_getfield t "sub_bucket_half_count_magnitude")) = .ok h.sub_bucket_half_count_magnitude ∧
      castInt32 (lua_tonumber (lua_getfield t "sub_bucket_half_count")) = .ok h.sub_bucket_half_count ∧
      castInt64 (lua_tonumber (lua_getfield t "sub_bucket_mask")) = .ok h.sub_bucket_mask ∧
      castInt32 (lua_tonumber (lua_getfield t "sub_bucket_count")) = .ok h.sub_bucket_count ∧
      castInt32 (lua_tonumber (lua_getfield t "bucket_count")) = .ok h.bucket_count ∧
      castInt64 (lua_tonumber (lua_getfield t "min_value")) = .ok h.min_value ∧
      castInt64 (lua_tonumber (lua_getfield t "max_value")) = .ok h.max_value ∧
      castInt32 (lua_tonumber (lua_getfield t "normalizing_index_offset")) = .ok h.normalizing_index_offset ∧
      lua_tonumber (lua_getfield t "conversion_ratio") = h.conversion_ratio ∧
      h.counts_len = counts_len ∧
      castInt64 (lua_tonumber (lua_getfield t "total_count")) = .ok h.total_count ∧
      read_cells ver (lua_getfield t "counts") counts_len.toNat = .ok h.counts := by
  unfold unserialize_reads at hr
  obtain ⟨cl, hcl, hr⟩ := bind_eq_ok _ _ _ hr
  split at hr
  · cases hr
  · rename_i hg
    obtain ⟨v1, h1, hr⟩ := bind_eq_ok _ _ _ hr
    obtain ⟨v2, h2, hr⟩ := bind_eq_ok _ _ _ hr
    obtain ⟨v3, h3, hr⟩ := bind_eq_ok _ _ _ hr
    obtain ⟨v4, h4, hr⟩ := bind_eq_ok _ _ _ hr
    obtain ⟨v5, h5, hr⟩ := bind_eq_ok _ _ _ hr
    obtain ⟨v6, h6, hr⟩ := bind_eq_ok _ _ _ hr
    obtain ⟨v7, h7, hr⟩ := bind_eq_ok _ _ _ hr
    obtain ⟨v8, h8, hr⟩ := bind_eq_ok _ _ _ hr
    obtain ⟨v9, h9, hr⟩ := bind_eq_ok _ _ _ hr
    obtain ⟨v10, h10, hr⟩ := bind_eq_ok _ _ _ hr
    obtain ⟨v11, h11, hr⟩ := bind_eq_ok _ _ _ hr
    obtain ⟨v12, h12, hr⟩ := bind_eq_ok _ _ _ hr
    obtain ⟨v15, h15, hr⟩ := bind_eq_ok _ _ _ hr
    obtain ⟨cells, hc, hr⟩ := bind_eq_ok _ _ _ hr
    simp only [Except.ok.injEq] at hr
    subst hr
    have hcl2 : 0 ≤ cl ∧ cl ≤ INT32_MAX := by omega
    have hw : wrap32 cl = cl := by
      apply wrap32_of_inInt32
      unfold inInt32 INT32_MIN
      omega
    exact ⟨cl, hcl, hcl2.1, hcl2.2, h1, h2, h3, h4, h5, h6, h7, h8, h9, h10, h11, h12, rfl,
      hw, h15, hc⟩

theorem read_cells_getD (ver : LuaVersion) (counts : LuaItem) :
    ∀ (n : Nat) (cells : List Int), read_cells ver counts n = .ok cells →
      ∀ i, i < n → read_cell ver counts i = .ok (cells.getD i 0) := by
  intro n
  induction n with
  | zero => intro _ _ i hi; omega
  | succ n ih =>
    intro cells hr i hi
    simp only [read_cells] at hr
    obtain ⟨vs, hvs, hr⟩ := bind_eq_ok _ _ _ hr
    obtain ⟨c, hc, hr⟩ := bind_eq_ok _ _ _ hr
    simp only [Except.ok.injEq] at hr
    subst hr
    have hl := read_cells_length ver counts n vs hvs
    by_cases hin : i < n
    · rw [ih vs hvs i hin]
      simp [List.getD_eq_getElem?_getD, List.getElem?_append_left (by omega : i < vs.length)]
    · have : i = n := by omega
      subst this
      rw [hc]
      simp [List.getD_eq_getElem?_getD, ← hl]

theorem read_cells_of_getD (ver : LuaVersion) (counts : LuaItem) (cells : List Int) :
    ∀ n, n ≤ cells.length →
      (∀ i, i < n → read_cell ver counts i = .ok (cells.getD i 0)) →
      read_cells ver counts n = .ok (cells.take n) := by
  intro n
  induction n with
  | zero => intro _ _; rfl
  | succ n ih =>
    intro hn hread
    simp only [read_cells]
    rw [ih (by omega) (fun i hi => hread i (by omega)), hread n (by omega)]
    simp only [Except.bind]
    rw [List.take_succ, List.getD_eq_getElem _ _ (by omega : n < cells.length)]
    simp [List.getElem?_eq_getElem (by omega : n < cells.length)]

theorem unserialize_reads_of_reads (ver : LuaVersion) (t : LuaTable) (h : hdr_histogram)
    (hcl : lua_tointeger ver (lua_getfield t "counts_len") = .ok h.counts_len)
    (h0 : 0 ≤ h.counts_len) (h32 : h.counts_len ≤ INT32_MAX)
    (h1 : castInt64 (lua_tonumber (lua_getfield t "lowest_trackable_value"))
      = .ok h.lowest_trackable_value)
    (h2 : castInt64 (lua_tonumber (lua_getfield t "highest_trackable_value"))
      = .ok h.highest_trackable_value)
    (h3 : castInt32 (lua_tonumber (lua_getfield t "unit_magnitude")) = .ok h.unit_magnitude)
    (h4 : castInt64 (lua_tonumber (lua_getfield t "significant_figures"))
      = .ok h.significant_figures)
    (h5 : castInt32 (lua_tonumber (lua_getfield t "sub_bucket_half_count_magnitude"))
      = .ok h.sub_bucket_half_count_magnitude)
    (h6 : castInt32 (lua_tonumber (lua_getfield t "sub_bucket_half_count"))
      = .ok h.sub_bucket_half_count)
    (h7 : castInt64 (lua_tonumber (lua_getfield t "sub_bucket_mask")) = .ok h.sub_bucket_mask)
    (h8 : castInt32 (lua_tonumber (lua_getfield t "sub_bucket_count")) = .ok h.sub_bucket_count)
    (h9 : castInt32 (lua_tonumber (lua_getfield t "bucket_count")) = .ok h.bucket_count)
    (h10 : castInt64 (lua_tonumber (lua_getfield t "min_value")) = .ok h.min_value)
    (h11 : castInt64 (lua_tonumber (lua_getfield t "max_value")) = .ok h.max_value)
    (h12 : castInt32 (lua_tonumber (lua_getfield t "normalizing_index_offset"))
      = .ok h.normalizing_index_offset)
    (h13 : lua_tonumber (lua_getfield t "conversion_ratio") = h.conversion_ratio)
    (h15 : castInt64 (lua_tonumber (lua_getfield t "total_count")) = .ok h.total_count)
    (hc : read_cells ver (lua_getfield t "counts") h.counts_len.toNat = .ok h.counts) :
    unserialize_reads ver t = .ok h := by
  unfold unserialize_reads
  rw [hcl]
  have hguard : ¬ (h.counts_len < 0 ∨ INT32_MAX < h.counts_len) := by omega
  simp only [Except.bind, if_neg hguard]
  rw [h1, h2, h3, h4, h5, h6, h7, h8, h9, h10, h11, h12, h15]
  simp only [hc, h13]
  rw [wrap32_of_inInt32 _ (by unfold inInt32 INT32_MIN; omega)]

/-- C10: `lhdr_unserialize` is a function of the snapshot alone.  Whatever the
block returned by `lua_newuserdata` held before (`junk`, `cellJunk`), two
runs on the same stack give the same outcome (the same histogram when one is
returned, the same fault otherwise); the outcome depends on no key outside
the sixteen that `lhdr_serialize` stores; and on a table the call returns the
histogram `h` exactly when `counts_len` reads as a non-negative `int32_t`,
each of the fifteen scalar fields of `h` is what the cast of the key of the
same name gives, `h` has exactly `counts_len` cells, and cell `i` is what
key `i+1` of `counts` reads as: every field and every cell is assigned from
the snapshot, and nothing else decides the result. -/
theorem lhdr_unserialize_function_of_snapshot (ver : LuaVersion)
    (junk₁ junk₂ : hdr_histogram) (cellJunk₁ cellJunk₂ : Nat → Int)
    (stack rest : List LuaValue) (t : LuaTable) (src h : hdr_histogram) :
    lhdr_unserialize ver junk₁ cellJunk₁ stack = lhdr_unserialize ver junk₂ cellJunk₂ stack ∧
    (lhdr_serialize ver [.userdata src]).map (fun r => r.1.fields.map Prod.fst)
      = .ok snapshot_keys ∧
    lhdr_unserialize ver junk₁ cellJunk₁ (.table t.restrict :: rest)
      = lhdr_unserialize ver junk₁ cellJunk₁ (.table t :: rest) ∧
    (lhdr_unserialize ver junk₁ cellJunk₁ (.table t :: rest) = .ok h ↔
      unserialize_hdr_property t "lowest_trackable_value" castInt64
        = .ok h.lowest_trackable_value ∧
      unserialize_hdr_property t "highest_trackable_value" castInt64
        = .ok h.highest_trackable_value ∧
      unserialize_hdr_property t "unit_magnitude" castInt32 = .ok h.unit_magnitude ∧
      unserialize_hdr_property t "significant_figures" castInt64
        = .ok h.significant_figures ∧
      unserialize_hdr_property t "sub_bucket_half_count_magnitude" castInt32
        = .ok h.sub_bucket_half_count_magnitude ∧
      unserialize_hdr_property t "sub_bucket_half_count" castInt32
        = .ok h.sub_bucket_half_count ∧
      unserialize_hdr_property t "sub_bucket_mask" castInt64 = .ok h.sub_bucket_mask ∧
      unserialize_hdr_property t "sub_bucket_count" castInt32 = .ok h.sub_bucket_count ∧
      unserialize_hdr_property t "bucket_count" castInt32 = .ok h.bucket_count ∧
      unserialize_hdr_property t "min_value" castInt64 = .ok h.min_value ∧
      unserialize_hdr_property t "max_value" castInt64 = .ok h.max_value ∧
      unserialize_hdr_property t "normalizing_index_offset" castInt32
        = .ok h.normalizing_index_offset ∧
      unserialize_hdr_property t "conversion_ratio" Except.ok = .ok h.conversion_ratio ∧
      lua_tointeger ver (lua_getfield t "counts_len") = .ok h.counts_len ∧
      0 ≤ h.counts_len ∧ h.counts_len ≤ INT32_MAX ∧
      unserialize_hdr_property t "total_count" castInt64 = .ok h.total_count ∧
      (h.counts.length : Int) = h.counts_len ∧
      ∀ i, i < h.counts.length →
        read_cell ver (lua_getfield t "counts") i = .ok (h.counts.getD i 0)) := by
  refine ⟨?_, rfl, ?_, ?_, ?_⟩
  · cases stack with
    | nil => rfl
    | cons a rest' =>
      cases a with
      | table t' => rw [lhdr_unserialize_eq, lhdr_unserialize_eq]
      | scalar v => rfl
      | userdata u => rfl
  · rw [lhdr_unserialize_eq, lhdr_unserialize_eq, unserialize_reads_restrict]
  · intro hr
    rw [lhdr_unserialize_eq] at hr
    obtain ⟨cl, hcl, h0, h32, h1, h2, h3, h4, h5, h6, h7, h8, h9, h10, h11, h12, h13, h14,
      h15, hc⟩ := unserialize_reads_ok ver t h hr
    have hlen := read_cells_length ver _ _ _ hc
    subst h14
    refine ⟨h1, h2, h3, h4, h5, h6, h7, h8, h9, h10, h11, h12, ?_, hcl, h0, h32, h15, ?_, ?_⟩
    · rw [← h13]; rfl
    · rw [hlen]; omega
    · intro i hi
      exact read_cells_getD ver _ _ _ hc i (by omega)
  · intro ⟨h1, h2, h3, h4, h5, h6, h7, h8, h9, h10, h11, h12, h13, hcl, h0, h32, h15, hlen,
      hcells⟩
    rw [lhdr_unserialize_eq]
    have hn : h.counts_len.toNat = h.counts.length := by omega
    have hc : read_cells ver (lua_getfield t "counts") h.counts_len.toNat = .ok h.counts := by
      rw [hn, read_cells_of_getD ver _ h.counts _ (Nat.le_refl _) hcells, List.take_length]
    have h13b : lua_tonumber (lua_getfield t "conversion_ratio") = h.conversion_ratio := by
      simpa [unserialize_hdr_property] using h13
    exact unserialize_reads_of_reads ver t h hcl h0 h32 h1 h2 h3 h4 h5 h6 h7 h8 h9 h10 h11
      h12 h13b h15 hc

/-- C10 at a concrete snapshot: every read of `snapshot_inconsistent` gives the
field or cell of `histogram_inconsistent`, so a run on zeroed memory and a run
on memory full of other values both return that histogram. -/
theorem lhdr_unserialize_function_of_snapshot_witness :
    lhdr_unserialize .lua51 (zeroed_histogram 0) (fun _ => 0) [.table snapshot_inconsistent]
      = .ok histogram_inconsistent ∧
    lhdr_unserialize .lua51 junk_histogram (fun i => 99 + i) [.table snapshot_inconsistent]
      = .ok histogram_inconsistent ∧
    lhdr_unserialize .lua51 junk_histogram (fun i => 99 + i)
      [.table snapshot_inconsistent.restrict] = .ok histogram_inconsistent :=
  have T := lhdr_unserialize_function_of_snapshot .lua51 (zeroed_histogram 0) junk_histogram
    (fun _ => 0) (fun i => 99 + i) [.table snapshot_inconsistent] [] snapshot_inconsistent
    histogram_inconsistent histogram_inconsistent
  have T2 := lhdr_unserialize_function_of_snapshot .lua51 junk_histogram junk_histogram
    (fun i => 99 + i) (fun i => 99 + i) [] [] snapshot_inconsistent
    histogram_inconsistent histogram_inconsistent
  have h1 : lhdr_unserialize .lua51 (zeroed_histogram 0) (fun _ => 0)
      [.table snapshot_inconsistent] = .ok histogram_inconsistent :=
    T.2.2.2.mpr (by decide)
  ⟨h1, T.1 ▸ h1, T2.2.2.1.trans (T2.2.2.2.mpr (by decide))⟩

theorem snapshotFields_mono (t : LuaTable) (h : hdr_histogram)
    (hf : SnapshotFields LuaItem.HoldsInt t h) :
    SnapshotFields LuaItem.HoldsIntOrAbsent t h := by
  obtain ⟨f1, f2, f3, f4, f5, f6, f7, f8, f9, f10, f11, f12, f13, f14, f15⟩ := hf
  exact ⟨.inl f1, .inl f2, .inl f3, .inl f4, .inl f5, .inl f6, .inl f7, .inl f8, .inl f9,
    .inl f10, .inl f11, .inl f12, .inl f13, .inl f14, f15⟩

theorem counts_len_nonneg_of_wellTyped (h : hdr_histogram) (hw : h.WellTyped) :
    0 ≤ h.counts_len := by
  have := hw.2.1
  omega

/-- C7, as amended: `lhdr_unserialize` copies the scalar fields through C casts
and checks nothing.  When each of the fourteen integer fields of the table is
a number whose value is an integer that fits the C type of the histogram
field it goes to and that a `lua_Number` holds exactly (a float with that
integral value, or a Lua 5.3 integer that converts to `double` without
rounding), and `counts` is a sequence of `counts_len` entries each holding a
64-bit integer (a float with an integral value or, in Lua 5.3, an integer),
the call returns the histogram `h` whose every scalar field is the like-named
value of the table, whether or not `counts_len` matches the bucket layout or
`total_count` the sum of the cells. -/
theorem lhdr_unserialize_trusts_snapshot (ver : LuaVersion) (junk : hdr_histogram)
    (cellJunk : Nat → Int) (t : LuaTable) (rest : List LuaValue) (h : hdr_histogram)
    (items : List LuaScalar) (hw : h.WellTyped)
    (hf : SnapshotFields LuaItem.HoldsInt t h)
    (hc : lua_getfield t "counts" = .sequence items)
    (hcells : CellsHold ver items h.counts) :
    lhdr_unserialize ver junk cellJunk (.table t :: rest) = .ok h := by
  rw [lhdr_unserialize_eq]
  have h0 := counts_len_nonneg_of_wellTyped h hw
  have hcl : h.counts_len.toNat = h.counts.length := by have := hw.2.1; omega
  have hr : read_cells ver (lua_getfield t "counts") h.counts_len.toNat = .ok h.counts := by
    rw [hc, read_cells_sequence ver items h.counts hcells hw.2.2, hcl, map_getD_range]
  exact unserialize_reads_of_fields ver t h h.counts (snapshotFields_mono t h hf) hw.1 h0 hr

/-- C7 at a snapshot whose derived fields disagree with one another. -/
theorem lhdr_unserialize_trusts_snapshot_witness :
    histogram_inconsistent.counts_len
      ≠ (histogram_inconsistent.bucket_count + 1) * histogram_inconsistent.sub_bucket_half_count ∧
    histogram_inconsistent.total_count ≠ histogram_inconsistent.counts.sum ∧
    lhdr_unserialize .lua53 junk_histogram (fun _ => 5) [.table snapshot_inconsistent]
      = .ok histogram_inconsistent :=
  ⟨by decide, by decide,
    lhdr_unserialize_trusts_snapshot .lua53 junk_histogram (fun _ => 5) snapshot_inconsistent []
      histogram_inconsistent [.number (.float (.finite 1 0)), .number (.float (.finite 2 0))]
      (by decide) (by decide) (by decide) (by decide)⟩

/-- C7 fails as stated: a snapshot with all fields present and a `counts`
sequence of the declared length, whose `total_count` is 1.5, is accepted and
the histogram's `total_count` is 1; and in Lua 5.3 one whose `total_count` is
the integer `2^53 + 1`, which fits `int64_t`, is accepted and the histogram's
`total_count` is `2^53`. -/
theorem lhdr_unserialize_truncates_counterexample :
    lua_getfield snapshot_big_integer "total_count"
      = .scalar (.number (.integer (2 ^ 53 + 1))) ∧
    inInt64 (2 ^ 53 + 1) ∧
    (lhdr_unserialize .lua53 junk_histogram (fun _ => 5) [.table snapshot_big_integer]).map
      (fun h => h.total_count) = .ok (2 ^ 53) ∧
    lua_tonumber (lua_getfield snapshot_fractional "total_count") = .finite 3 (-1) ∧
    (lhdr_unserialize .lua51 junk_histogram (fun _ => 5) [.table snapshot_fractional]).map
      (fun h => h.total_count) = .ok 1 ∧
    (lhdr_unserialize .lua53 junk_histogram (fun _ => 5) [.table snapshot_fractional]).map
      (fun h => h.total_count) = .ok 1 ∧
    ¬ (lua_getfield snapshot_fractional "total_count").HoldsInt 1 := by
  decide

/-- C3, as amended: `lhdr_unserialize` never compares the length of `counts`
with `counts_len`.  When each of the fourteen integer fields of the table is
a number whose value is an integer that fits the C type of its histogram
field (`counts_len` not negative) and that a `lua_Number` holds exactly (a
float with that integral value, or a Lua 5.3 integer that converts to
`double` without rounding), and `counts` is a sequence, of any length, of
entries each holding a 64-bit integer (a float with an integral value or, in
Lua 5.3, an integer), the call succeeds; cell `i < counts_len` is entry `i+1`
of the sequence when there is one and 0 otherwise, and entries past
`counts_len` are not read. -/
theorem lhdr_unserialize_ignores_counts_length (ver : LuaVersion) (junk : hdr_histogram)
    (cellJunk : Nat → Int) (t : LuaTable) (rest : List LuaValue) (h : hdr_histogram)
    (items : List LuaScalar) (vals : List Int) (ht : h.ScalarsTyped) (h0 : 0 ≤ h.counts_len)
    (hf : SnapshotFields LuaItem.HoldsInt t h)
    (hc : lua_getfield t "counts" = .sequence items)
    (hcells : CellsHold ver items vals) (hr : ∀ c ∈ vals, inInt64 c) :
    lhdr_unserialize ver junk cellJunk (.table t :: rest) =
      .ok { h with counts := (List.range h.counts_len.toNat).map fun i => vals.getD i 0 } := by
  rw [lhdr_unserialize_eq]
  apply unserialize_reads_of_fields ver t h _ (snapshotFields_mono t h hf) ht h0
  rw [hc, read_cells_sequence ver items vals hcells hr]

/-- C3 at a snapshot that declares two cells and carries one. -/
theorem lhdr_unserialize_ignores_counts_length_witness :
    lhdr_unserialize .lua51 junk_histogram (fun _ => 5) [.table snapshot_short_counts]
      = .ok { histogram_inconsistent with counts := [5, 0] } :=
  lhdr_unserialize_ignores_counts_length .lua51 junk_histogram (fun _ => 5)
    snapshot_short_counts [] histogram_inconsistent [.number (.float (.finite 5 0))] [5]
    (by decide) (by decide) (by decide) (by decide) (by decide) (by decide)

/-- C3 fails as stated: a snapshot whose `counts` has one entry under a
`counts_len` of 2 is accepted, and a histogram with cells 5 and 0 comes back. -/
theorem lhdr_unserialize_length_mismatch_counterexample :
    lua_getfield snapshot_short_counts "counts" = .sequence [.number (.float (.finite 5 0))] ∧
    lua_getfield snapshot_short_counts "counts_len" = .ofInt 2 ∧
    lhdr_unserialize .lua51 junk_histogram (fun _ => 5) [.table snapshot_short_counts]
      = .ok { histogram_inconsistent with counts := [5, 0] } ∧
    lhdr_unserialize .lua53 junk_histogram (fun _ => 5) [.table snapshot_short_counts]
      = .ok { histogram_inconsistent with counts := [5, 0] } := by
  decide

/-- C4, as amended: an absent scalar field does not make `lhdr_unserialize`
fail.  Each of the fourteen integer fields is either absent or a number whose
value is an integer that fits the C type of its histogram field and that a
`lua_Number` holds exactly (a float with that integral value, or a Lua 5.3
integer that converts to `double` without rounding); an absent field (read as
`nil`, which converts to 0) leaves 0 in the histogram; `counts` is a sequence
of `counts_len` entries each holding a 64-bit integer, or `counts_len` is 0
and `counts` is not looked into.  Then the call returns the histogram whose
fields are those integers. -/
theorem lhdr_unserialize_absent_field_reads_zero (ver : LuaVersion) (junk : hdr_histogram)
    (cellJunk : Nat → Int) (t : LuaTable) (rest : List LuaValue) (h : hdr_histogram)
    (items : List LuaScalar) (hw : h.WellTyped)
    (hf : SnapshotFields LuaItem.HoldsIntOrAbsent t h)
    (hc : (lua_getfield t "counts" = .sequence items ∧ CellsHold ver items h.counts) ∨
      h.counts_len = 0) :
    lhdr_unserialize ver junk cellJunk (.table t :: rest) = .ok h := by
  rw [lhdr_unserialize_eq]
  have h0 := counts_len_nonneg_of_wellTyped h hw
  have hcl : h.counts_len.toNat = h.counts.length := by have := hw.2.1; omega
  have hr : read_cells ver (lua_getfield t "counts") h.counts_len.toNat = .ok h.counts := by
    rcases hc with ⟨hc, hcells⟩ | hz
    · rw [hc, read_cells_sequence ver items h.counts hcells hw.2.2, hcl, map_getD_range]
    · have hnil : h.counts = [] := by
        apply List.eq_nil_of_length_eq_zero
        omega
      rw [hz, hnil]
      rfl
  exact unserialize_reads_of_fields ver t h h.counts hf hw.1 h0 hr

/-- C4 at a snapshot that carries three of the sixteen keys. -/
theorem lhdr_unserialize_absent_field_reads_zero_witness :
    lua_getfield snapshot_sparse "min_value" = .scalar .nil ∧
    lhdr_unserialize .lua51 junk_histogram (fun _ => 5) [.table snapshot_sparse]
      = .ok histogram_sparse ∧ histogram_sparse.min_value = 0 :=
  ⟨by decide,
    lhdr_unserialize_absent_field_reads_zero .lua51 junk_histogram (fun _ => 5) snapshot_sparse
      [] histogram_sparse [.number (.float (.finite 3 0))] (by decide) (by decide)
      (.inl ⟨by decide, by decide⟩),
    by decide⟩

/-- C4 fails as stated: the empty table, in which all fifteen scalar fields
and `counts` are absent, is accepted and gives a histogram of zeros with no
cells. -/
theorem lhdr_unserialize_missing_fields_counterexample :
    lhdr_unserialize .lua51 junk_histogram (fun _ => 5) [.table lua_newtable]
      = .ok (zeroed_histogram 0) ∧
    lhdr_unserialize .lua53 junk_histogram (fun _ => 5) [.table lua_newtable]
      = .ok (zeroed_histogram 0) := by
  decide

theorem holdsInt_pushnumber (n : Int) (h : DoubleExact n) :
    (LuaItem.scalar (lua_pushnumber (int64ToDouble n))).HoldsInt n := by
  unfold DoubleExact at h
  simp [LuaItem.HoldsInt, LuaScalar.HoldsInt, lua_pushnumber, int64ToDouble, LuaFloat.toInt?,
    LuaFloat.isIntegral, LuaFloat.trunc, h]

theorem holdsCell_pushinteger (ver : LuaVersion) (n : Int) (h : ver = .lua53 ∨ DoubleExact n) :
    (lua_pushinteger ver n).HoldsCell ver n := by
  cases ver with
  | lua53 => simp [lua_pushinteger, LuaScalar.HoldsCell]
  | lua51 =>
    rcases h with h | h
    · cases h
    · unfold DoubleExact at h
      simp [lua_pushinteger, LuaScalar.HoldsCell, LuaScalar.HoldsInt, int64ToDouble,
        LuaFloat.toInt?, LuaFloat.isIntegral, LuaFloat.trunc, h]

theorem cellsHold_map_pushinteger (ver : LuaVersion) (cells : List Int)
    (h : ver = .lua53 ∨ ∀ c ∈ cells, DoubleExact c) :
    CellsHold ver (cells.map (lua_pushinteger ver)) cells := by
  refine ⟨by simp, ?_⟩
  intro p hp
  rw [List.zip_map_left, List.mem_map] at hp
  obtain ⟨⟨a, b⟩, hab, rfl⟩ := hp
  have hab' := List.of_mem_zip hab
  have : a = b := by
    have := List.mem_iff_getElem.mp hab
    obtain ⟨i, hi, he⟩ := this
    simp at he
    omega
  subst this
  simp only [Prod.map_fst, Prod.map_snd, id]
  apply holdsCell_pushinteger
  rcases h with h | h
  · exact .inl h
  · exact .inr (h a hab'.1)

/-- The table `lhdr_serialize` builds for a histogram whose values convert to
Lua numbers without rounding carries every field and every cell. -/
theorem serialize_snapshot (ver : LuaVersion) (h : hdr_histogram) (hw : h.WellTyped)
    (hs : h.ScalarsExact) (hc : h.CellsExact ver) :
    ∃ t, lhdr_serialize ver [.userdata h] = .ok (t, h) ∧
      t.fields.map Prod.fst = snapshot_keys ∧
      SnapshotFields LuaItem.HoldsInt t h ∧
      lua_getfield t "conversion_ratio" = .scalar (.number (.float h.conversion_ratio)) ∧
      lua_getfield t "counts" = .sequence (h.counts.map (lua_pushinteger ver)) ∧
      CellsHold ver (h.counts.map (lua_pushinteger ver)) h.counts := by
  obtain ⟨e1, e2, e3, e4, e5, e6, e7, e8, e9, e10, e11, e12, e13, e14⟩ := hs
  refine ⟨_, lhdr_serialize_eq ver h, rfl, ?_, ?_, ?_, cellsHold_map_pushinteger ver _ hc⟩
  · exact ⟨holdsInt_pushnumber _ e1, holdsInt_pushnumber _ e2, holdsInt_pushnumber _ e3,
      holdsInt_pushnumber _ e4, holdsInt_pushnumber _ e5, holdsInt_pushnumber _ e6,
      holdsInt_pushnumber _ e7, holdsInt_pushnumber _ e8, holdsInt_pushnumber _ e9,
      holdsInt_pushnumber _ e10, holdsInt_pushnumber _ e11, holdsInt_pushnumber _ e12,
      holdsInt_pushnumber _ e13, holdsInt_pushnumber _ e14, rfl⟩
  · rfl
  · rw [← serialize_counts_eq ver h hw.2.1]
    rfl


/-- C6, as amended: for a histogram whose integer fields all convert to
`double` without rounding (and, in Lua 5.1, whose cells do too),
`lhdr_serialize` returns a table with exactly the sixteen keys, each integer
field under its own name as a number holding the field's value,
`conversion_ratio` as it is, and under `counts` a sequence of exactly
`counts_len` entries whose entry `i+1` holds `counts[i]`; the histogram is
returned unchanged. -/
theorem lhdr_serialize_dumps_state (ver : LuaVersion) (h : hdr_histogram) (hw : h.WellTyped)
    (hs : h.ScalarsExact) (hc : h.CellsExact ver) :
    ∃ t items, lhdr_serialize ver [.userdata h] = .ok (t, h) ∧
      t.fields.map Prod.fst = snapshot_keys ∧
      SnapshotFields LuaItem.HoldsInt t h ∧
      lua_getfield t "conversion_ratio" = .scalar (.number (.float h.conversion_ratio)) ∧
      lua_getfield t "counts" = .sequence items ∧
      (items.length : Int) = h.counts_len ∧
      ∀ i, i < h.counts.length →
        ∃ v, lua_rawgeti (lua_getfield t "counts") (i + 1) = .ok v ∧
          v.HoldsCell ver (h.counts.getD i 0) := by
  obtain ⟨t, h1, h2, h3, h4, h5, h6⟩ := serialize_snapshot ver h hw hs hc
  refine ⟨t, _, h1, h2, h3, h4, h5, ?_, ?_⟩
  · rw [List.length_map]
    exact hw.2.1
  · intro i hi
    have hi2 : i < (h.counts.map (lua_pushinteger ver)).length := by simpa using hi
    refine ⟨_, by rw [h5]; rfl, ?_⟩
    simp only [Nat.add_one_ne_zero, if_false, Nat.add_sub_cancel]
    rw [List.getD_eq_getElem _ _ hi2, List.getD_eq_getElem _ _ hi]
    have hlz : i < ((h.counts.map (lua_pushinteger ver)).zip h.counts).length := by
      simpa using hi
    have hmem := List.getElem_mem hlz
    rw [List.getElem_zip] at hmem
    exact h6.2 _ hmem

/-- C6 at the two-cell histogram `histogram_inconsistent`. -/
theorem lhdr_serialize_dumps_state_witness :
    ∃ t items, lhdr_serialize .lua51 [.userdata histogram_inconsistent]
        = .ok (t, histogram_inconsistent) ∧
      t.fields.map Prod.fst = snapshot_keys ∧
      SnapshotFields LuaItem.HoldsInt t histogram_inconsistent ∧
      lua_getfield t "conversion_ratio"
        = .scalar (.number (.float histogram_inconsistent.conversion_ratio)) ∧
      lua_getfield t "counts" = .sequence items ∧
      (items.length : Int) = histogram_inconsistent.counts_len ∧
      ∀ i, i < histogram_inconsistent.counts.length →
        ∃ v, lua_rawgeti (lua_getfield t "counts") (i + 1) = .ok v ∧
          v.HoldsCell .lua51 (histogram_inconsistent.counts.getD i 0) :=
  lhdr_serialize_dumps_state .lua51 histogram_inconsistent (by decide) (by decide) (by decide)

set_option maxRecDepth 100000 in
/-- C6 fails as stated: for a well-typed histogram with `total_count` equal to
`2^53 + 1` the table holds `2^53` under `total_count`, and in Lua 5.1 also
under key 6 of `counts`, whose cell is `2^53 + 1`. -/
theorem lhdr_serialize_rounds_counterexample :
    histogram_big.WellTyped ∧ histogram_big.total_count = 2 ^ 53 + 1 ∧
    histogram_big.counts.getD 5 0 = 2 ^ 53 + 1 ∧
    (lhdr_serialize .lua51 [.userdata histogram_big]).map
      (fun r => lua_getfield r.1 "total_count") = .ok (.ofInt (2 ^ 53)) ∧
    (lhdr_serialize .lua53 [.userdata histogram_big]).map
      (fun r => lua_getfield r.1 "total_count") = .ok (.ofInt (2 ^ 53)) ∧
    (lhdr_serialize .lua51 [.userdata histogram_big]).map
      (fun r => lua_rawgeti (lua_getfield r.1 "counts") 6)
      = .ok (.ok (.number (.float (.finite (2 ^ 53) 0)))) := by
  decide

/-- C1, as amended: for a histogram whose integer fields all convert to
`double` without rounding (and, in Lua 5.1, whose cells do too),
`unserialize(serialize(h))` is `h` itself, field by field and cell by cell,
whatever the new block held before; so `count`, `min`, `max` and `percentile`
answer on it what they answer on `h`. -/
theorem round_trip_exact (ver : LuaVersion) (junk : hdr_histogram) (cellJunk : Nat → Int)
    (eng : Engine) (p : LuaValue) (h : hdr_histogram) (hw : h.WellTyped)
    (hs : h.ScalarsExact) (hc : h.CellsExact ver) :
    ∃ h2, round_trip ver junk cellJunk h = .ok h2 ∧ h2 = h ∧
      lhdr_count [.userdata h2] = lhdr_count [.userdata h] ∧
      lhdr_min eng [.userdata h2] = lhdr_min eng [.userdata h] ∧
      lhdr_max eng [.userdata h2] = lhdr_max eng [.userdata h] ∧
      lhdr_percentile eng [.userdata h2, p] = lhdr_percentile eng [.userdata h, p] := by
  obtain ⟨t, h1, _, h3, _, h5, h6⟩ := serialize_snapshot ver h hw hs hc
  refine ⟨h, ?_, rfl, rfl, rfl, rfl, rfl⟩
  unfold round_trip
  rw [h1]
  simp only [Except.bind]
  rw [lhdr_unserialize_eq]
  have h0 := counts_len_nonneg_of_wellTyped h hw
  have hcl : h.counts_len.toNat = h.counts.length := by have := hw.2.1; omega
  have hr : read_cells ver (lua_getfield t "counts") h.counts_len.toNat = .ok h.counts := by
    rw [h5, read_cells_sequence ver _ h.counts h6 hw.2.2, hcl, map_getD_range]
  exact unserialize_reads_of_fields ver t h h.counts (snapshotFields_mono t h h3) hw.1 h0 hr

/-- C1 at the two-cell histogram `histogram_inconsistent`. -/
theorem round_trip_exact_witness :
    round_trip .lua51 junk_histogram (fun _ => 5) histogram_inconsistent
      = .ok histogram_inconsistent :=
  let ⟨_, hr, he, _⟩ := round_trip_exact .lua51 junk_histogram (fun _ => 5)
    { hdr_calculate_bucket_config := fun _ _ _ => none,
      hdr_init_preallocated := fun h _ => h,
      hdr_min := fun h => h.min_value, hdr_max := fun h => h.max_value,
      hdr_mean := fun _ => .finite 0 0, hdr_stddev := fun _ => .finite 0 0,
      hdr_value_at_percentile := fun h _ => h.max_value }
    (.scalar (.number (.float (.finite 50 0)))) histogram_inconsistent
    (by decide) (by decide) (by decide)
  he ▸ hr

set_option maxRecDepth 100000 in
/-- C1 fails as stated: the round trip of a well-typed histogram with
`total_count` equal to `2^53 + 1` comes back with `total_count` equal to
`2^53`, in Lua 5.1 and in Lua 5.3.  And for an empty histogram whose
`min_value` is the largest `int64_t`, the table holds `2^63` and the cast back
to `int64_t` is not defined. -/
theorem round_trip_rounds_counterexample :
    histogram_big.WellTyped ∧ histogram_big.total_count = 2 ^ 53 + 1 ∧
    (round_trip .lua51 junk_histogram (fun _ => 5) histogram_big).map
      (fun h => h.total_count) = .ok (2 ^ 53) ∧
    (round_trip .lua53 junk_histogram (fun _ => 5) histogram_big).map
      (fun h => h.total_count) = .ok (2 ^ 53) ∧
    round_trip .lua51 junk_histogram (fun _ => 5) histogram_big ≠ .ok histogram_big ∧
    round_trip .lua53 junk_histogram (fun _ => 5) histogram_big ≠ .ok histogram_big ∧
    histogram_empty.WellTyped ∧
    round_trip .lua51 junk_histogram (fun _ => 5) histogram_empty = .error .undefined ∧
    round_trip .lua53 junk_histogram (fun _ => 5) histogram_empty = .error .undefined := by
  decide

/-- C5, as amended: on a histogram with `total_count` equal to 0 the four
queries return 0 whatever `min_value` and `max_value` hold; with
`total_count > 0`, `mean` and `stddev` return the engine's result, and `min`
and `max` return the engine's 64-bit result converted to a Lua number, which
is that very value whenever it converts to `double` without rounding; all
four leave the histogram as it was. -/
theorem lhdr_queries_guarded (eng : Engine) (h : hdr_histogram) :
    (h.total_count = 0 →
      lhdr_min eng [.userdata h] = .ok (.number (.float (.finite 0 0)), h) ∧
      lhdr_max eng [.userdata h] = .ok (.number (.float (.finite 0 0)), h) ∧
      lhdr_mean eng [.userdata h] = .ok (.number (.float (.finite 0 0)), h) ∧
      lhdr_stddev eng [.userdata h] = .ok (.number (.float (.finite 0 0)), h)) ∧
    (h.total_count > 0 →
      lhdr_mean eng [.userdata h] = .ok (.number (.float (eng.hdr_mean h)), h) ∧
      lhdr_stddev eng [.userdata h] = .ok (.number (.float (eng.hdr_stddev h)), h) ∧
      lhdr_min eng [.userdata h] = .ok (lua_pushnumber (int64ToDouble (eng.hdr_min h)), h) ∧
      lhdr_max eng [.userdata h] = .ok (lua_pushnumber (int64ToDouble (eng.hdr_max h)), h) ∧
      (DoubleExact (eng.hdr_min h) →
        lhdr_min eng [.userdata h] = .ok (.number (.float (.finite (eng.hdr_min h) 0)), h)) ∧
      (DoubleExact (eng.hdr_max h) →
        lhdr_max eng [.userdata h] = .ok (.number (.float (.finite (eng.hdr_max h) 0)), h))) := by
  constructor
  · intro h0
    simp [lhdr_min, lhdr_max, lhdr_mean, lhdr_stddev, check_hdrhistogram, Except.bind, h0,
      lua_pushnumber]
    decide
  · intro hpos
    simp only [lhdr_min, lhdr_max, lhdr_mean, lhdr_stddev, check_hdrhistogram, Except.bind,
      lua_pushnumber, hpos, if_true, List.length_singleton, true_and]
    constructor
    · intro he
      unfold DoubleExact at he
      simp [int64ToDouble, he]
    · intro he
      unfold DoubleExact at he
      simp [int64ToDouble, he]

/-- C5 at an empty histogram holding the largest `int64_t` in `min_value`, and
at a histogram with one value. -/
theorem lhdr_queries_guarded_witness :
    lhdr_min stored_fields_engine [.userdata histogram_empty]
      = .ok (.number (.float (.finite 0 0)), histogram_empty) ∧
    lhdr_max stored_fields_engine [.userdata histogram_empty]
      = .ok (.number (.float (.finite 0 0)), histogram_empty) ∧
    lhdr_min stored_fields_engine [.userdata histogram_inconsistent]
      = .ok (.number (.float (.finite 3 0)), histogram_inconsistent) :=
  have T0 := lhdr_queries_guarded stored_fields_engine histogram_empty
  have T1 := lhdr_queries_guarded stored_fields_engine histogram_inconsistent
  have E := T0.1 (by decide)
  ⟨E.1, E.2.1, (T1.2 (by decide)).2.2.2.2.1 (by decide)⟩

/-- C5 fails as stated: with an engine whose `hdr_max` is `2^53 + 1` on a
histogram with `total_count` equal to 1, `max` returns the number `2^53`. -/
theorem lhdr_max_rounds_counterexample :
    histogram_large_value.WellTyped ∧ histogram_large_value.total_count = 1 ∧
    stored_fields_engine.hdr_max histogram_large_value = 2 ^ 53 + 1 ∧
    lhdr_max stored_fields_engine [.userdata histogram_large_value]
      = .ok (.number (.float (.finite (2 ^ 53) 0)), histogram_large_value) ∧
    stored_fields_engine.hdr_min histogram_large_value = 2 ^ 53 + 1 ∧
    lhdr_min stored_fields_engine [.userdata histogram_large_value]
      = .ok (.number (.float (.finite (2 ^ 53) 0)), histogram_large_value) := by
  decide


theorem checknumber_ofInt (ver : LuaVersion) (n : Int) (hn : inInt64 n) (he : DoubleExact n) :
    (luaL_checknumber (LuaValue.ofInt ver n)).bind castInt64 = .ok n := by
  unfold DoubleExact at he
  cases ver <;>
    simp [LuaValue.ofInt, luaL_checknumber, LuaNumber.asFloat, int64ToDouble, Except.bind,
      castInt64, LuaFloat.trunc, he, hn]

theorem checkinteger_ofInt (ver : LuaVersion) (n : Int) (hn : inInt64 n) :
    luaL_checkinteger ver (LuaValue.ofInt ver n) = .ok n := by
  cases ver <;>
    simp [LuaValue.ofInt, luaL_checkinteger, LuaNumber.asFloat, castInt64, LuaFloat.trunc, hn]

theorem lhdr_new_checks_ofInt (ver : LuaVersion) (l h s : Int) (hl : inInt64 l)
    (hh : inInt64 h) (hs : inInt64 s) (el : DoubleExact l) (eh : DoubleExact h) :
    lhdr_new_checks ver [.ofInt ver l, .ofInt ver h, .ofInt ver s] =
      if ¬ (l ≥ 1) then .error (.luaError "lowest trackable value must be >= 1")
      else if ¬ (h > wrap64 (l * 2)) then
        .error (.luaError "highest trackable value must be > lowest*2")
      else if ¬ (0 < s ∧ 6 > s) then .error (.luaError "significant figures must be 1-5")
      else .ok (l, h, s) := by
  have h1 := checknumber_ofInt ver l hl el
  have h2 := checknumber_ofInt ver h hh eh
  have h3 := checkinteger_ofInt ver s hs
  unfold lhdr_new_checks
  simp only []
  obtain ⟨d1, hd1, hc1⟩ := bind_eq_ok _ _ _ h1
  obtain ⟨d2, hd2, hc2⟩ := bind_eq_ok _ _ _ h2
  rw [hd1]
  simp only [Except.bind]
  rw [hc1]
  simp only []
  rw [hd2]
  simp only []
  rw [hc2]
  simp only []
  rw [h3]

theorem wrap64_double (l : Int) (h1 : 1 ≤ l) (h2 : l < 2 ^ 62) : wrap64 (l * 2) = 2 * l := by
  unfold wrap64
  omega

/-- C2, as amended: for 64-bit integer arguments `lowest` and `highest` that
convert to `double` without rounding and any 64-bit `significant_figures`,
`lhdr_new` raises an error in its own argument checks, whatever the engine,
when `lowest < 1`, or `highest <= 2*lowest` with `lowest < 2^62`, or
`significant_figures` is outside 1..5; and when `lowest >= 1`,
`highest > 2*lowest` and `significant_figures` is in 1..5 the checks pass
with exactly these three values, which `lhdr_new` hands to
`hdr_calculate_bucket_config`. -/
theorem lhdr_new_validates (ver : LuaVersion) (eng : Engine) (l h s : Int) (hl : inInt64 l)
    (hh : inInt64 h) (hs : inInt64 s) (el : DoubleExact l) (eh : DoubleExact h) :
    ((l < 1 ∨ (h ≤ 2 * l ∧ l < 2 ^ 62) ∨ s < 1 ∨ 5 < s) →
      ∃ msg, lhdr_new_checks ver [.ofInt ver l, .ofInt ver h, .ofInt ver s]
          = .error (.luaError msg) ∧
        lhdr_new ver eng [.ofInt ver l, .ofInt ver h, .ofInt ver s]
          = .error (.luaError msg)) ∧
    ((1 ≤ l ∧ 2 * l < h ∧ 1 ≤ s ∧ s ≤ 5) →
      lhdr_new_checks ver [.ofInt ver l, .ofInt ver h, .ofInt ver s] = .ok (l, h, s) ∧
      lhdr_new ver eng [.ofInt ver l, .ofInt ver h, .ofInt ver s] =
        match eng.hdr_calculate_bucket_config l h s with
        | none => .error (.luaError "hdr_calculate_bucket_config failed")
        | some cfg =>
          if cfg.counts_len < 0 then .error .undefined
          else .ok (eng.hdr_init_preallocated (zeroed_histogram cfg.counts_len.toNat) cfg)) := by
  have hchk := lhdr_new_checks_ofInt ver l h s hl hh hs el eh
  constructor
  · intro hv
    have herr : ∃ msg, lhdr_new_checks ver [.ofInt ver l, .ofInt ver h, .ofInt ver s]
        = .error (.luaError msg) := by
      rw [hchk]
      by_cases c1 : l ≥ 1
      · rw [if_neg (not_not.mpr c1)]
        by_cases c2 : h > wrap64 (l * 2)
        · rw [if_neg (not_not.mpr c2)]
          by_cases c3 : 0 < s ∧ 6 > s
          · exfalso
            rcases hv with hv | ⟨hv, hv2⟩ | hv | hv
            · omega
            · rw [wrap64_double l c1 hv2] at c2
              omega
            · omega
            · omega
          · rw [if_pos c3]
            exact ⟨_, rfl⟩
        · rw [if_pos c2]
          exact ⟨_, rfl⟩
      · rw [if_pos c1]
        exact ⟨_, rfl⟩
    obtain ⟨msg, hm⟩ := herr
    refine ⟨msg, hm, ?_⟩
    unfold lhdr_new
    rw [hm]
    rfl
  · intro ⟨c1, c2, c3, c4⟩
    have hl62 : l < 2 ^ 62 := by
      have := hh.2
      unfold INT64_MAX at this
      omega
    have hok : lhdr_new_checks ver [.ofInt ver l, .ofInt ver h, .ofInt ver s] = .ok (l, h, s) := by
      rw [hchk, wrap64_double l c1 hl62]
      rw [if_neg (by omega), if_neg (by omega), if_neg (by omega)]
    refine ⟨hok, ?_⟩
    unfold lhdr_new
    rw [hok]
    rfl

/-- C2 at three argument triples: a `highest` that is exactly `2*lowest` is
refused, a `significant_figures` of 6 is refused, and (1, 3600000000, 3)
passes the checks unchanged. -/
theorem lhdr_new_validates_witness :
    (∃ msg, lhdr_new_checks .lua51 [.ofInt .lua51 10, .ofInt .lua51 20, .ofInt .lua51 3]
      = .error (.luaError msg)) ∧
    (∃ msg, lhdr_new_checks .lua53 [.ofInt .lua53 1, .ofInt .lua53 1000, .ofInt .lua53 6]
      = .error (.luaError msg)) ∧
    lhdr_new_checks .lua53 [.ofInt .lua53 1, .ofInt .lua53 3600000000, .ofInt .lua53 3]
      = .ok (1, 3600000000, 3) :=
  have A := (lhdr_new_validates .lua51 stored_fields_engine 10 20 3 (by decide) (by decide)
    (by decide) (by decide) (by decide)).1 (.inr (.inl (by decide)))
  have B := (lhdr_new_validates .lua53 stored_fields_engine 1 1000 6 (by decide) (by decide)
    (by decide) (by decide) (by decide)).1 (.inr (.inr (.inr (by decide))))
  have C := (lhdr_new_validates .lua53 stored_fields_engine 1 3600000000 3 (by decide)
    (by decide) (by decide) (by decide) (by decide)).2 (by decide)
  ⟨A.elim fun m hm => ⟨m, hm.1⟩, B.elim fun m hm => ⟨m, hm.1⟩, C.1⟩

/-- C2 fails as stated.  In Lua 5.3 the integer arguments (1, 2^53 + 1, 3)
meet the three preconditions and the checks hand (1, 2^53, 3) to the
bucket-config calculation.  And for (2^62, 2^62, 3), where `highest` is not
above `2*lowest`, the product `lowest*2` wraps, every check passes, and with an
engine that accepts the request `lhdr_new` returns a histogram. -/
theorem lhdr_new_checks_counterexample :
    lhdr_new_checks .lua53 [.ofInt .lua53 1, .ofInt .lua53 (2 ^ 53 + 1), .ofInt .lua53 3]
      = .ok (1, 2 ^ 53, 3) ∧
    lhdr_new_checks .lua51 [.ofInt .lua51 (2 ^ 62), .ofInt .lua51 (2 ^ 62), .ofInt .lua51 3]
      = .ok (2 ^ 62, 2 ^ 62, 3) ∧
    lhdr_new_checks .lua53 [.ofInt .lua53 (2 ^ 62), .ofInt .lua53 (2 ^ 62), .ofInt .lua53 3]
      = .ok (2 ^ 62, 2 ^ 62, 3) ∧
    (lhdr_new .lua51 stored_fields_engine
      [.ofInt .lua51 (2 ^ 62), .ofInt .lua51 (2 ^ 62), .ofInt .lua51 3]).toBool = true := by
  decide

theorem bit_length_aux_spec : ∀ (fuel n : Nat), n ≤ fuel →
    n < 2 ^ bit_length_aux fuel n ∧ (n ≠ 0 → 2 ^ (bit_length_aux fuel n - 1) ≤ n) := by
  intro fuel
  induction fuel with
  | zero =>
    intro n hn
    have : n = 0 := by omega
    subst this
    simp [bit_length_aux]
  | succ fuel ih =>
    intro n hn
    unfold bit_length_aux
    by_cases h0 : n = 0
    · subst h0; simp
    · rw [if_neg h0]
      obtain ⟨h1, h2⟩ := ih (n / 2) (by omega)
      constructor
      · rw [Nat.add_comm, Nat.pow_succ]
        omega
      · intro _
        rw [Nat.add_sub_cancel_left]
        by_cases hh : n / 2 = 0
        · rw [hh]
          have : bit_length_aux fuel 0 = 0 := by cases fuel <;> simp [bit_length_aux]
          rw [this]
          simp
          omega
        · have h3 := h2 hh
          have hpos : bit_length_aux fuel (n / 2) ≠ 0 := by
            intro hz
            rw [hz] at h1
            simp at h1
            exact hh h1
          have : 2 ^ bit_length_aux fuel (n / 2) = 2 * 2 ^ (bit_length_aux fuel (n / 2) - 1) := by
            rw [← Nat.pow_succ']
            congr 1
            omega
          omega

theorem bit_length_lt (n : Nat) : n < 2 ^ bit_length n :=
  (bit_length_aux_spec n n (Nat.le_refl n)).1

theorem bit_length_le (n : Nat) (h : n ≠ 0) : 2 ^ (bit_length n - 1) ≤ n :=
  (bit_length_aux_spec n n (Nat.le_refl n)).2 h

theorem le_or_mask (a m : Nat) : a ≤ a ||| m ∧ m ≤ a ||| m := by
  constructor <;>
  · apply Nat.le_of_testBit
    intro i hi
    simp [hi]

/-- The bucket and sub-bucket of a value, for a layout whose sub-bucket count
is `2^(k+1)`: the sub-bucket is below the count, and from bucket 1 on it is in
the upper half. -/
theorem bucket_bounds (cfg : BucketConfig) (v : Nat)
    (hs : cfg.sub_bucket_count = 2 ^ (cfg.sub_bucket_half_count_magnitude + 1)) :
    sub_bucket_index cfg v < 2 ^ (cfg.sub_bucket_half_count_magnitude + 1) ∧
    (bucket_index cfg v > 0 →
      2 ^ cfg.sub_bucket_half_count_magnitude ≤ sub_bucket_index cfg v) ∧
    (bucket_index cfg v = 0 →
      v / 2 ^ cfg.unit_magnitude < 2 ^ (cfg.sub_bucket_half_count_magnitude + 1)) := by
  unfold sub_bucket_index bucket_index
  rw [hs]
  generalize cfg.sub_bucket_half_count_magnitude = hm
  generalize cfg.unit_magnitude = um
  rw [Nat.shiftRight_eq_div_pow, Nat.shiftRight_eq_div_pow]
  set a := v / 2 ^ um with ha
  set x := a ||| (2 ^ (hm + 1) - 1) with hx
  have hax := (le_or_mask a (2 ^ (hm + 1) - 1)).1
  have hmx := (le_or_mask a (2 ^ (hm + 1) - 1)).2
  have hpow : 1 ≤ 2 ^ hm := Nat.one_le_two_pow
  have hpow2 : 2 ^ (hm + 1) = 2 * 2 ^ hm := by rw [Nat.pow_succ']
  have hx0 : x ≠ 0 := by omega
  have hlt := bit_length_lt x
  have hle := bit_length_le x hx0
  set L := bit_length x with hL
  have hLk : hm + 1 ≤ L := by
    by_contra hc
    have : 2 ^ L ≤ 2 ^ hm := Nat.pow_le_pow_right (by decide) (by omega)
    omega
  have hsplit : 2 ^ L = 2 ^ (L - 1 - hm) * 2 ^ (hm + 1) := by
    rw [← Nat.pow_add]
    congr 1
    omega
  have hdiv : v / 2 ^ (L - 1 - hm + um) = a / 2 ^ (L - 1 - hm) := by
    rw [ha, Nat.div_div_eq_div_mul, Nat.pow_add, Nat.mul_comm]
  rw [hdiv]
  refine ⟨?_, ?_, ?_⟩
  · rw [Nat.div_lt_iff_lt_mul (Nat.two_pow_pos _), Nat.mul_comm, ← hsplit]
    omega
  · intro hb
    have hL1 : hm + 1 ≤ L - 1 := by omega
    have ha2 : 2 ^ (L - 1) ≤ a := by
      by_contra hc
      have h1 : a < 2 ^ (L - 1) := by omega
      have h2 : 2 ^ (hm + 1) - 1 < 2 ^ (L - 1) := by
        have : 2 ^ (hm + 1) ≤ 2 ^ (L - 1) := Nat.pow_le_pow_right (by decide) hL1
        omega
      have := Nat.or_lt_two_pow h1 h2
      omega
    rw [Nat.le_div_iff_mul_le (Nat.two_pow_pos _), ← Nat.pow_add]
    have : hm + (L - 1 - hm) = L - 1 := by omega
    rw [this]
    exact ha2
  · intro hb
    have : L = hm + 1 := by omega
    rw [this] at hlt
    omega


theorem half_count_magnitude_bound (n : Nat) (h1 : 1 ≤ n) (h5 : n ≤ 5) :
    10 ^ n ≤ 2 ^ (max (ceil_log2 (2 * 10 ^ n) - 1) 1) := by
  interval_cases n <;> decide

theorem calculate_layout (l h sf : Int) (cfg : BucketConfig)
    (hc : calculate l h sf = some cfg) :
    cfg.sub_bucket_count = 2 ^ (cfg.sub_bucket_half_count_magnitude + 1) ∧
    cfg.sub_bucket_half_count = 2 ^ cfg.sub_bucket_half_count_magnitude ∧
    10 ^ cfg.significant_figures ≤ cfg.sub_bucket_half_count ∧
    (cfg.significant_figures : Int) = sf ∧
    cfg.counts_len = (cfg.bucket_count + 1) * cfg.sub_bucket_half_count := by
  unfold calculate at hc
  split at hc
  · rename_i hv
    simp only [] at hc
    split at hc
    · simp only [Option.some.injEq] at hc
      subst hc
      simp only []
      have hsf1 : 1 ≤ sf.toNat := by omega
      have hsf5 : sf.toNat ≤ 5 := by omega
      refine ⟨trivial, ?_, ?_, by omega, trivial⟩
      · rw [Nat.pow_succ, Nat.mul_div_cancel _ (by decide : 0 < 2)]
      · rw [Nat.pow_succ, Nat.mul_div_cancel _ (by decide : 0 < 2)]
        exact half_count_magnitude_bound _ hsf1 hsf5
    · cases hc
  · cases hc

/-- C8, as amended: for a layout produced by `calculate` and a value `v`
outside the upper half of the base range (`v` below
`sub_bucket_half_count << unit_magnitude`, or at least
`sub_bucket_count << unit_magnitude`), decoding the index that the encoding
assigns to `v` gives `r` with `r <= v` and `v - r` below
`2^(bucket_index + unit_magnitude)`; and `v - r` is at most `v / 10^significant_figures`
when `unit_magnitude` is 0 or `v` is at least `10^significant_figures << unit_magnitude`.
All of it is arithmetic on natural numbers. -/
theorem decode_encode_within_resolution (l h sf : Int) (cfg : BucketConfig) (v : Nat)
    (hc : calculate l h sf = some cfg)
    (hv : v < cfg.sub_bucket_half_count <<< cfg.unit_magnitude ∨
      cfg.sub_bucket_count <<< cfg.unit_magnitude ≤ v) :
    value_at_index cfg (counts_index_for cfg v) ≤ v ∧
    v - value_at_index cfg (counts_index_for cfg v)
      < 2 ^ (bucket_index cfg v + cfg.unit_magnitude) ∧
    (cfg.unit_magnitude = 0 ∨ 10 ^ cfg.significant_figures * 2 ^ cfg.unit_magnitude ≤ v →
      (v - value_at_index cfg (counts_index_for cfg v)) * 10 ^ cfg.significant_figures ≤ v) := by
  obtain ⟨hs, hh, h10, _, _⟩ := calculate_layout l h sf cfg hc
  obtain ⟨b1, b2, b3⟩ := bucket_bounds cfg v hs
  rw [Nat.shiftLeft_eq, Nat.shiftLeft_eq] at hv
  have hpos : 0 < cfg.sub_bucket_half_count := by rw [hh]; exact Nat.two_pow_pos _
  have hpow2 : 2 ^ (cfg.sub_bucket_half_count_magnitude + 1) = 2 * cfg.sub_bucket_half_count := by
    rw [Nat.pow_succ', hh]
  rw [hpow2] at b1 b3
  rw [← hh] at b2
  -- the decoded value is the value with its low bits cleared
  have hdec : value_at_index cfg (counts_index_for cfg v) =
      v / 2 ^ (bucket_index cfg v + cfg.unit_magnitude)
        * 2 ^ (bucket_index cfg v + cfg.unit_magnitude) := by
    unfold value_at_index counts_index_for
    by_cases hb : bucket_index cfg v > 0
    · have hsub := b2 hb
      rw [if_pos hb]
      have hq : (bucket_index cfg v * cfg.sub_bucket_half_count +
          (sub_bucket_index cfg v - cfg.sub_bucket_half_count)) / cfg.sub_bucket_half_count
          = bucket_index cfg v := by
        rw [Nat.mul_comm, Nat.mul_add_div hpos, Nat.div_eq_of_lt (by omega)]
        rfl
      simp only [hq, if_pos hb]
      rw [Nat.shiftLeft_eq]
      congr 1
      rw [Nat.mul_comm, Nat.add_sub_cancel_left, Nat.sub_add_cancel hsub]
      unfold sub_bucket_index
      rw [Nat.shiftRight_eq_div_pow]
    · have hb0 : bucket_index cfg v = 0 := by omega
      have hlt := b3 hb0
      rw [if_neg hb]
      have hsub : sub_bucket_index cfg v = v / 2 ^ cfg.unit_magnitude := by
        unfold sub_bucket_index
        rw [Nat.shiftRight_eq_div_pow, hb0, Nat.zero_add]
      have hsmall : v / 2 ^ cfg.unit_magnitude < cfg.sub_bucket_half_count := by
        rcases hv with hv | hv
        · exact (Nat.div_lt_iff_lt_mul (Nat.two_pow_pos _)).mpr hv
        · exfalso
          rw [hs, hpow2] at hv
          have := (Nat.le_div_iff_mul_le (Nat.two_pow_pos cfg.unit_magnitude)).mpr hv
          omega
      rw [hsub, Nat.div_eq_of_lt hsmall]
      simp only [gt_iff_lt, Nat.lt_irrefl, if_false, Nat.zero_add]
      rw [Nat.shiftLeft_eq, hb0, Nat.zero_add]
  rw [hdec]
  set d := 2 ^ (bucket_index cfg v + cfg.unit_magnitude) with hd
  have hdpos : 0 < d := Nat.two_pow_pos _
  have hle : v / d * d ≤ v := Nat.div_mul_le_self v d
  have hmod : v - v / d * d = v % d := by
    have := Nat.div_add_mod v d
    rw [Nat.mul_comm] at this
    omega
  have hlt : v % d < d := Nat.mod_lt v hdpos
  refine ⟨hle, by omega, ?_⟩
  intro hrel
  rw [hmod]
  by_cases hb : bucket_index cfg v > 0
  · -- from bucket 1 on the sub-bucket is at least the half count
    have hsub := b2 hb
    unfold sub_bucket_index at hsub
    rw [Nat.shiftRight_eq_div_pow, ← hd] at hsub
    have h1 : cfg.sub_bucket_half_count * d ≤ v :=
      (Nat.le_div_iff_mul_le hdpos).mp hsub
    calc v % d * 10 ^ cfg.significant_figures
        ≤ d * 10 ^ cfg.significant_figures := Nat.mul_le_mul_right _ (Nat.le_of_lt hlt)
      _ ≤ d * cfg.sub_bucket_half_count := Nat.mul_le_mul_left _ h10
      _ = cfg.sub_bucket_half_count * d := Nat.mul_comm _ _
      _ ≤ v := h1
  · have hb0 : bucket_index cfg v = 0 := by omega
    rw [hb0, Nat.zero_add] at hd
    rcases hrel with hz | hbig
    · rw [hz] at hd
      simp at hd
      rw [hd, Nat.mod_one]
      simp
    · calc v % d * 10 ^ cfg.significant_figures
          ≤ d * 10 ^ cfg.significant_figures := Nat.mul_le_mul_right _ (Nat.le_of_lt hlt)
        _ = 10 ^ cfg.significant_figures * 2 ^ cfg.unit_magnitude := by rw [hd, Nat.mul_comm]
        _ ≤ v := hbig


/-- C8 at the layout of (1, 1000, 1) and the value 500, which lies in bucket 4
and is decoded as 496. -/
theorem decode_encode_within_resolution_witness :
    value_at_index config_1_1000_1 (counts_index_for config_1_1000_1 500) ≤ 500 ∧
    500 - value_at_index config_1_1000_1 (counts_index_for config_1_1000_1 500)
      < 2 ^ (bucket_index config_1_1000_1 500 + config_1_1000_1.unit_magnitude) ∧
    (500 - value_at_index config_1_1000_1 (counts_index_for config_1_1000_1 500))
      * 10 ^ config_1_1000_1.significant_figures ≤ 500 :=
  have T := decode_encode_within_resolution 1 1000 1 config_1_1000_1 500 (by decide)
    (.inr (by decide))
  ⟨T.1, T.2.1, T.2.2 (.inl rfl)⟩

/-- C8 fails as stated.  In the layout of (1, 1000, 1) the values 20 (bucket 0)
and 40 (bucket 1) are both given index 20, which is decoded as 40, above 20;
no decoding whatever meets the claim for both.  And in the layout of
(2, 1000, 1) the value 3 is decoded as 2, within one unit of its bucket, with
a relative error of one third, above one tenth. -/
theorem decode_encode_counterexample :
    calculate 1 1000 1 = some config_1_1000_1 ∧
    bucket_index config_1_1000_1 20 = 0 ∧ bucket_index config_1_1000_1 40 = 1 ∧
    counts_index_for config_1_1000_1 20 = 20 ∧ counts_index_for config_1_1000_1 40 = 20 ∧
    value_at_index config_1_1000_1 (counts_index_for config_1_1000_1 20) = 40 ∧
    (¬ ∃ decode : Nat → Nat, ∀ v, v ≤ 1000 →
      decode (counts_index_for config_1_1000_1 v) ≤ v ∧
      v - decode (counts_index_for config_1_1000_1 v)
        < 2 ^ (bucket_index config_1_1000_1 v + config_1_1000_1.unit_magnitude)) ∧
    calculate 2 1000 1 = some config_2_1000_1 ∧
    value_at_index config_2_1000_1 (counts_index_for config_2_1000_1 3) = 2 ∧
    ¬ ((3 - value_at_index config_2_1000_1 (counts_index_for config_2_1000_1 3))
        * 10 ^ config_2_1000_1.significant_figures ≤ 3) := by
  refine ⟨by decide, by decide, by decide, by decide, by decide, by decide, ?_, by decide,
    by decide, by decide⟩
  rintro ⟨decode, hd⟩
  have h20 := hd 20 (by decide)
  have h40 := hd 40 (by decide)
  have e20 : counts_index_for config_1_1000_1 20 = 20 := by decide
  have e40 : counts_index_for config_1_1000_1 40 = 20 := by decide
  have b20 : bucket_index config_1_1000_1 20 = 0 := by decide
  have b40 : bucket_index config_1_1000_1 40 = 1 := by decide
  have um : config_1_1000_1.unit_magnitude = 0 := rfl
  rw [e20, b20, um] at h20
  rw [e40, b40, um] at h40
  simp at h20 h40
  omega

/-- A value above `largest_representable` has its index at or above
`(bucket_count + 1) × sub_bucket_half_count`: the adjusted shift is the
largest value the layout represents. -/
theorem index_ge_of_gt_largest (cfg : BucketConfig) (v bc : Nat)
    (hs : cfg.sub_bucket_count = 2 ^ (cfg.sub_bucket_half_count_magnitude + 1))
    (hh : cfg.sub_bucket_half_count = 2 ^ cfg.sub_bucket_half_count_magnitude)
    (hv : largest_representable cfg.sub_bucket_count cfg.unit_magnitude bc < v) :
    (bc + 1) * cfg.sub_bucket_half_count ≤ counts_index_for cfg v := by
  obtain ⟨b1, b2, b3⟩ := bucket_bounds cfg v hs
  have hpos : 0 < cfg.sub_bucket_half_count := by rw [hh]; exact Nat.two_pow_pos _
  have hpow2 : 2 ^ (cfg.sub_bucket_half_count_magnitude + 1) = 2 * cfg.sub_bucket_half_count := by
    rw [Nat.pow_succ', hh]
  have hupos : 0 < 2 ^ cfg.unit_magnitude := Nat.two_pow_pos _
  rw [← hh] at b2
  unfold largest_representable at hv
  unfold counts_index_for
  by_cases hb0 : bucket_index cfg v > 0
  · rw [if_pos hb0]
    have hsub := b2 hb0
    have hbge : bc ≤ bucket_index cfg v - 1 ∨ bc = 0 := by
      by_cases hbc : bc = 0
      · exact .inr hbc
      · left
        rw [if_neg hbc, Nat.shiftLeft_eq, hs] at hv
        by_contra hc
        have hble : bucket_index cfg v ≤ bc := by omega
        -- the sub-bucket is below the count, so the value is below the shifted count
        have hsb := b1
        unfold sub_bucket_index at hsb
        rw [Nat.shiftRight_eq_div_pow, Nat.div_lt_iff_lt_mul (Nat.two_pow_pos _)] at hsb
        have hmono : 2 ^ (bucket_index cfg v + cfg.unit_magnitude)
            ≤ 2 ^ (cfg.unit_magnitude + bc) := Nat.pow_le_pow_right (by decide) (by omega)
        have := Nat.mul_le_mul_left (2 ^ (cfg.sub_bucket_half_count_magnitude + 1)) hmono
        omega
    rcases hbge with hbge | hbc
    · have h1 : (bc + 1) * cfg.sub_bucket_half_count
          ≤ bucket_index cfg v * cfg.sub_bucket_half_count :=
        Nat.mul_le_mul_right _ (by omega)
      omega
    · subst hbc
      have h1 : 1 * cfg.sub_bucket_half_count
          ≤ bucket_index cfg v * cfg.sub_bucket_half_count :=
        Nat.mul_le_mul_right _ (by omega)
      omega
  · rw [if_neg hb0]
    have hb : bucket_index cfg v = 0 := by omega
    have hlt := b3 hb
    rw [hpow2] at hlt
    unfold sub_bucket_index
    rw [hb, Nat.zero_add, Nat.shiftRight_eq_div_pow]
    by_cases hbc : bc = 0
    · subst hbc
      rw [if_pos rfl, Nat.shiftLeft_eq, hs, hpow2,
        Nat.mul_div_cancel_left _ (by decide : 0 < 2)] at hv
      rw [Nat.zero_add, Nat.one_mul, Nat.le_div_iff_mul_le hupos]
      omega
    · exfalso
      rw [if_neg hbc, Nat.shiftLeft_eq, hs, hpow2] at hv
      have h2 : v < 2 * cfg.sub_bucket_half_count * 2 ^ cfg.unit_magnitude :=
        (Nat.div_lt_iff_lt_mul hupos).mp hlt
      have hmono : 2 ^ cfg.unit_magnitude ≤ 2 ^ (cfg.unit_magnitude + bc) :=
        Nat.pow_le_pow_right (by decide) (by omega)
      have := Nat.mul_le_mul_left (2 * cfg.sub_bucket_half_count) hmono
      omega


end LuaHdr
